import Mathlib

/-!
# Verification of the AEC-File-Manager scan-and-catalog pipeline

Shallow embedding of the core pipeline of the AEC Directory Scanner
repository, covering:

* the directory scanners (`src/aec_scanner/core/file_scanner.py` and
  `src/aec_scanner/core/async_file_scanner.py`),
* the AEC naming-convention parser and extraction dispatch
  (`src/aec_scanner/core/metadata_extractor.py`),
* the catalog/persistence layer
  (`src/aec_scanner/database/database_manager.py`), and
* the scan orchestrator (`src/aec_scanner/main.py`).

File-system state is modelled as a rose tree of entries, absolute paths as
component lists, timestamps as integers, and the SQLite tables as Lean lists
of row structures.  Each definition mirrors one Python function of the
source; comments point to the original file and line numbers.
-/

set_option autoImplicit false

/-- An absolute path, as its list of components below the filesystem root.
`["p", "a.txt"]` stands for the POSIX path `/p/a.txt`. -/
abbrev AbsPath := List String

/-- Filesystem metadata of one on-disk file, as surfaced by `Path.stat()`:
size plus the three POSIX timestamps, and the content digest that
`_calculate_file_hash` would produce. -/
structure FileMeta where
  size : Nat
  ctime : Int
  mtime : Int
  atime : Int
  contentHash : String
  deriving Repr, DecidableEq

/-- One entry of the on-disk tree: a regular file or a directory. -/
inductive FSEntry where
  | file (name : String) (meta : FileMeta)
  | dir (name : String) (children : List FSEntry)

/-- The modelled disk: the children of the filesystem root `/`. -/
abbrev Disk := List FSEntry

/-- Name of an entry. -/
def FSEntry.name : FSEntry → String
  | .file n _ => n
  | .dir n _ => n

/-- Look up the entry at `p` under a list of sibling entries. -/
def findEntry : Disk → AbsPath → Option FSEntry
  | _, [] => none
  | entries, [n] => entries.find? (fun e => e.name = n)
  | entries, n :: rest =>
    match entries.find? (fun e => e.name = n) with
    | some (.dir _ cs) => findEntry cs rest
    | _ => none

/-- `os.path.exists`: the path names a file or a directory on disk.
The empty path is the filesystem root, which always exists. -/
def pathExists (disk : Disk) (p : AbsPath) : Bool :=
  match p with
  | [] => true
  | _ => (findEntry disk p).isSome

/-- Children of the directory at `p`, or `none` when `p` is not a
directory (then `iterdir()` raises and the scanners return no entries). -/
def dirChildren (disk : Disk) (p : AbsPath) : Option (List FSEntry) :=
  match p with
  | [] => some disk
  | _ =>
    match findEntry disk p with
    | some (.dir _ cs) => some cs
    | _ => none

/-- `pathlib` suffix computation: split a file name at its last dot,
returning the parts before and after it, or `none` when the name has no
dot at all. -/
def lastDotSplit : List Char → Option (List Char × List Char)
  | [] => none
  | c :: rest =>
    match lastDotSplit rest with
    | some (b, a) => some (c :: b, a)
    | none => if c = '.' then some ([], rest) else none

/-- `pathlib.PurePath.suffix`: the extension of a file name including the
leading dot; empty when the only dot leads the name (hidden files) or
ends it. -/
def fileSuffix (name : String) : String :=
  match lastDotSplit name.toList with
  | some (before, after) =>
    if before ≠ [] ∧ after ≠ [] then String.mk ('.' :: after) else ""
  | none => ""

/-- `pathlib.PurePath.stem`: the file name without its `fileSuffix`. -/
def fileStem (name : String) : String :=
  match lastDotSplit name.toList with
  | some (before, after) =>
    if before ≠ [] ∧ after ≠ [] then String.mk before
    else String.mk (before ++ '.' :: after)
  | none => name

/-- ASCII lower-casing of one character (`str.lower` on the ASCII names
the scanner compares; file names are modelled as ASCII). -/
def charLower (c : Char) : Char :=
  if 'A' ≤ c ∧ c ≤ 'Z' then Char.ofNat (c.toNat + 32) else c

/-- ASCII upper-casing of one character (`str.upper` / `re.IGNORECASE`). -/
def charUpper (c : Char) : Char :=
  if 'a' ≤ c ∧ c ≤ 'z' then Char.ofNat (c.toNat - 32) else c

/-- `str.lower` on a whole string. -/
def asciiLower (s : String) : String :=
  String.mk (s.toList.map charLower)

/-- `name.startswith('.')`. -/
def startsWithDot (name : String) : Bool :=
  match name.toList with
  | '.' :: _ => true
  | _ => false

/-- Scanner configuration, from `FileSystemScanner.__init__` /
`AsyncFileSystemScanner.__init__` (`file_scanner.py:42`,
`async_file_scanner.py:29`). -/
structure ScannerConfig where
  hash_files : Bool
  excluded_extensions : List String
  excluded_directories : List String
  deriving Repr, DecidableEq

/-- The default exclusion sets of both scanner constructors. -/
def defaultScannerConfig : ScannerConfig :=
  { hash_files := false
    excluded_extensions := [".tmp", ".log", ".bak", ".swp"]
    excluded_directories := ["temp", ".git", "__pycache__", "node_modules"] }

/-- The scanners' per-file record (`FileInfo` dataclass,
`file_scanner.py:20`). -/
structure FileInfo where
  file_path : AbsPath
  file_name : String
  file_extension : String
  file_size : Nat
  created_time : Int
  modified_time : Int
  accessed_time : Int
  parent_directory : AbsPath
  depth_level : Nat
  file_hash : Option String
  deriving Repr, DecidableEq

/-- `FileSystemScanner._should_exclude_file` (`file_scanner.py:234`):
excluded extensions, and hidden names except the reserved project
metadata file. -/
def should_exclude_file (cfg : ScannerConfig) (name : String) : Bool :=
  if cfg.excluded_extensions.contains (asciiLower (fileSuffix name)) then true
  else if startsWithDot name ∧ name ≠ ".aec_project_metadata.json" then true
  else false

/-- `AsyncFileSystemScanner._should_exclude_file`
(`async_file_scanner.py:276`); textually identical to the thread-pool
scanner's predicate. -/
def should_exclude_file_async (cfg : ScannerConfig) (name : String) : Bool :=
  if cfg.excluded_extensions.contains (asciiLower (fileSuffix name)) then true
  else if startsWithDot name ∧ name ≠ ".aec_project_metadata.json" then true
  else false

/-- `_should_exclude_directory` (`file_scanner.py:246`,
`async_file_scanner.py:288`): case-insensitive name comparison. -/
def should_exclude_directory (cfg : ScannerConfig) (dirName : String) : Bool :=
  (cfg.excluded_directories.map asciiLower).contains (asciiLower dirName)

/-- `FileSystemScanner._process_file` (`file_scanner.py:199`): `None` for
excluded files, otherwise the populated `FileInfo`. -/
def process_file (cfg : ScannerConfig) (parent : AbsPath) (depth : Nat)
    (name : String) (m : FileMeta) : Option FileInfo :=
  if should_exclude_file cfg name then none
  else
    some { file_path := parent ++ [name]
           file_name := name
           file_extension := asciiLower (fileSuffix name)
           file_size := m.size
           created_time := m.ctime
           modified_time := m.mtime
           accessed_time := m.atime
           parent_directory := parent
           depth_level := depth
           file_hash := if cfg.hash_files then some m.contentHash else none }

/-- `AsyncFileSystemScanner._process_file_async`
(`async_file_scanner.py:191`); same logical output as `process_file`. -/
def process_file_async (cfg : ScannerConfig) (parent : AbsPath) (depth : Nat)
    (name : String) (m : FileMeta) : Option FileInfo :=
  if should_exclude_file_async cfg name then none
  else
    some { file_path := parent ++ [name]
           file_name := name
           file_extension := asciiLower (fileSuffix name)
           file_size := m.size
           created_time := m.ctime
           modified_time := m.mtime
           accessed_time := m.atime
           parent_directory := parent
           depth_level := depth
           file_hash := if cfg.hash_files then some m.contentHash else none }

/-- Contribution of the regular files among one directory's children in the
thread-pool scanner: one pool task per file (`file_scanner.py:133-139`),
results gathered after the loop (`file_scanner.py:146-153`), modelled in
submission order (`as_completed` order is scheduling-dependent and the
results are compared as sets). -/
def threadFiles (cfg : ScannerConfig) (dirPath : AbsPath) (depth : Nat) :
    List FSEntry → List FileInfo
  | [] => []
  | .file n m :: rest =>
    match process_file cfg dirPath depth n m with
    | some fi => fi :: threadFiles cfg dirPath depth rest
    | none => threadFiles cfg dirPath depth rest
  | .dir _ _ :: rest => threadFiles cfg dirPath depth rest

/-- Contribution of the subdirectories among one directory's children in
`FileSystemScanner._scan_recursive` (`file_scanner.py:140-143`): each
non-excluded subdirectory is scanned inline during the iteration, its file
results in turn consisting of its own subdirectory block followed by its
own file block. -/
def threadDirs (cfg : ScannerConfig) (dirPath : AbsPath) (depth : Nat) :
    List FSEntry → List FileInfo
  | [] => []
  | .file _ _ :: rest => threadDirs cfg dirPath depth rest
  | .dir n cs :: rest =>
    (if should_exclude_directory cfg n then []
     else threadDirs cfg (dirPath ++ [n]) (depth + 1) cs ++
          threadFiles cfg (dirPath ++ [n]) (depth + 1) cs) ++
    threadDirs cfg dirPath depth rest

/-- `FileSystemScanner._scan_recursive` on one directory's children:
subdirectory results are extended into `files_info` during the iteration,
file futures are appended afterwards (`file_scanner.py:124-162`). -/
def threadScanList (cfg : ScannerConfig) (dirPath : AbsPath) (depth : Nat)
    (cs : List FSEntry) : List FileInfo :=
  threadDirs cfg dirPath depth cs ++ threadFiles cfg dirPath depth cs

/-- `FileSystemScanner.scan_directory` (`file_scanner.py:77`): empty result
when the root does not exist (or `iterdir` fails on a non-directory),
otherwise the recursive scan starting at depth 0. -/
def scan_directory (cfg : ScannerConfig) (disk : Disk) (root : AbsPath) :
    List FileInfo :=
  match dirChildren disk root with
  | none => []
  | some cs => threadScanList cfg root 0 cs

/-- File contribution in `AsyncFileSystemScanner._scan_recursive_async`:
the current directory's files are gathered in batches in list order
(`async_file_scanner.py:132-151`). -/
def asyncFiles (cfg : ScannerConfig) (dirPath : AbsPath) (depth : Nat) :
    List FSEntry → List FileInfo
  | [] => []
  | .file n m :: rest =>
    match process_file_async cfg dirPath depth n m with
    | some fi => fi :: asyncFiles cfg dirPath depth rest
    | none => asyncFiles cfg dirPath depth rest
  | .dir _ _ :: rest => asyncFiles cfg dirPath depth rest

/-- Subdirectory contribution in
`AsyncFileSystemScanner._scan_recursive_async`
(`async_file_scanner.py:153-158`): subdirectories are recursed after the
current directory's files, each yielding its own files before its own
subdirectories. -/
def asyncDirs (cfg : ScannerConfig) (dirPath : AbsPath) (depth : Nat) :
    List FSEntry → List FileInfo
  | [] => []
  | .file _ _ :: rest => asyncDirs cfg dirPath depth rest
  | .dir n cs :: rest =>
    (if should_exclude_directory cfg n then []
     else asyncFiles cfg (dirPath ++ [n]) (depth + 1) cs ++
          asyncDirs cfg (dirPath ++ [n]) (depth + 1) cs) ++
    asyncDirs cfg dirPath depth rest

/-- `AsyncFileSystemScanner._scan_recursive_async` on one directory's
children: files first, then subdirectories (`async_file_scanner.py:119`). -/
def asyncScanList (cfg : ScannerConfig) (dirPath : AbsPath) (depth : Nat)
    (cs : List FSEntry) : List FileInfo :=
  asyncFiles cfg dirPath depth cs ++ asyncDirs cfg dirPath depth cs

/-- `AsyncFileSystemScanner.scan_directory_async`
(`async_file_scanner.py:62`). -/
def scan_directory_async (cfg : ScannerConfig) (disk : Disk)
    (root : AbsPath) : List FileInfo :=
  match dirChildren disk root with
  | none => []
  | some cs => asyncScanList cfg root 0 cs

/-- `FileSystemScanner.incremental_scan` (`file_scanner.py:329`): the full
scan filtered to descriptors whose modified or created time is strictly
after the cutoff. -/
def incremental_scan (cfg : ScannerConfig) (disk : Disk) (root : AbsPath)
    (last_scan_time : Int) : List FileInfo :=
  (scan_directory cfg disk root).filter
    (fun fi => last_scan_time < fi.modified_time ∨ last_scan_time < fi.created_time)

/-- `AsyncFileSystemScanner.incremental_scan_async`
(`async_file_scanner.py:298`). -/
def incremental_scan_async (cfg : ScannerConfig) (disk : Disk)
    (root : AbsPath) (last_scan_time : Int) : List FileInfo :=
  (scan_directory_async cfg disk root).filter
    (fun fi => last_scan_time < fi.modified_time ∨ last_scan_time < fi.created_time)

/-- Sample file metadata for concrete scans. -/
def demoMeta : FileMeta :=
  { size := 10, ctime := 5, mtime := 7, atime := 9, contentHash := "h0" }

/-- A small project tree: a hidden file, a file with an excluded
extension, a regular file and a `.git` directory with content. -/
def demoDisk : Disk :=
  [.dir "proj"
    [.file ".hidden" demoMeta,
     .file "junk.tmp" demoMeta,
     .file "b.txt" demoMeta,
     .dir ".git" [.file "config" demoMeta]]]

/-- The descriptor both scanners report for `/proj/b.txt`. -/
def demoInfo : FileInfo :=
  { file_path := ["proj", "b.txt"]
    file_name := "b.txt"
    file_extension := ".txt"
    file_size := 10
    created_time := 5
    modified_time := 7
    accessed_time := 9
    parent_directory := ["proj"]
    depth_level := 0
    file_hash := none }

/-! ## Regex embedding for the naming-convention parser

`MetadataExtractor.aec_patterns` (`metadata_extractor.py:516`) is a table
of regular expressions applied with `re.search`.  Each pattern is embedded
as a continuation-passing matcher over `List Char`; `reSearch` quantifies
over all start positions, which is exactly the acceptance condition of
`re.search`.  `re.IGNORECASE` literals and classes compare via
`charUpper`. -/

/-- Between `lo` and `hi` repetitions of a character class, then the
continuation (`{lo,hi}` quantifier). -/
def matchReps (p : Char → Bool) (k : List Char → Bool) :
    Nat → Nat → List Char → Bool
  | lo, hi, s =>
    (decide (lo = 0) && k s) ||
    match hi, s with
    | hi' + 1, c :: rest => p c && matchReps p k (lo - 1) hi' rest
    | _, _ => false

/-- One or more repetitions (`+` quantifier). -/
def matchPlus (p : Char → Bool) (k : List Char → Bool) : List Char → Bool
  | [] => false
  | c :: rest => p c && (k rest || matchPlus p k rest)

/-- A case-sensitive literal character. -/
def litC (c : Char) (k : List Char → Bool) : List Char → Bool
  | [] => false
  | x :: rest => x = c && k rest

/-- A single character of a class. -/
def matchChar (p : Char → Bool) (k : List Char → Bool) : List Char → Bool
  | [] => false
  | x :: rest => p x && k rest

/-- A case-insensitive literal string (character list). -/
def litListCI : List Char → (List Char → Bool) → List Char → Bool
  | [], k, s => k s
  | c :: cs, k, s =>
    match s with
    | [] => false
    | x :: rest => charUpper x = charUpper c && litListCI cs k rest

/-- A case-sensitive literal string (character list). -/
def litListCS : List Char → (List Char → Bool) → List Char → Bool
  | [], k, s => k s
  | c :: cs, k, s =>
    match s with
    | [] => false
    | x :: rest => x = c && litListCS cs k rest

/-- `re.search`: the matcher succeeds at some start position. -/
def reSearch (m : List Char → Bool) (s : List Char) : Bool :=
  s.tails.any m

/-- Alternation over a token vocabulary, case-insensitively. -/
def anyTokenCI (tokens : List String) (k : List Char → Bool)
    (s : List Char) : Bool :=
  tokens.any (fun t => litListCI t.toList k s)

/-- Alternation over a token vocabulary, case-sensitively. -/
def anyTokenCS (tokens : List String) (k : List Char → Bool)
    (s : List Char) : Bool :=
  tokens.any (fun t => litListCS t.toList k s)

/-- `[CR]` under `re.IGNORECASE`. -/
def isCRChar (c : Char) : Bool :=
  charUpper c = 'C' || charUpper c = 'R'

/-- `[A-Z0-9]` case-sensitively (legacy `sheet_number` pattern). -/
def isUpperOrDigit (c : Char) : Bool :=
  c.isUpper || c.isDigit

/-- Trivial continuation: the rest of the string is unconstrained
(`re.search` does not anchor the end). -/
def anyRest : List Char → Bool := fun _ => true

/-! ### The primary grammar

`primary_format` (`metadata_extractor.py:518`):
`([A-Z]{2})_([A-Z]{1,2}|EN|SU|PM|GE)_([A-Z0-9]{2,6})_([A-Z0-9]{1,8})_`
`([CR]\d{1,2}|[A-Z]{2,6})_([0-9]{6})\.([a-z0-9]{2,4})`, searched with
`re.IGNORECASE`.  The continuation chain below follows the groups right to
left. -/

/-- Groups 6-7: `_([0-9]{6})\.([a-z0-9]{2,4})`. -/
def afterRevision : List Char → Bool :=
  litC '_' (matchReps Char.isDigit
    (litC '.' (matchReps Char.isAlphanum anyRest 2 4)) 6 6)

/-- Group 5: `([CR]\d{1,2}|[A-Z]{2,6})` then the date/extension tail. -/
def revisionGroup : List Char → Bool := fun s =>
  matchChar isCRChar (matchReps Char.isDigit afterRevision 1 2) s ||
  matchReps Char.isAlpha afterRevision 2 6 s

/-- Groups 3-4: `([A-Z0-9]{2,6})_([A-Z0-9]{1,8})_` then the revision
tail. -/
def afterDiscipline : List Char → Bool :=
  litC '_' (matchReps Char.isAlphanum
    (litC '_' (matchReps Char.isAlphanum (litC '_' revisionGroup) 1 8)) 2 6)

/-- Group 2: `([A-Z]{1,2}|EN|SU|PM|GE)` then the rest. -/
def disciplineGroup : List Char → Bool := fun s =>
  matchReps Char.isAlpha afterDiscipline 1 2 s ||
  litListCI "EN".toList afterDiscipline s ||
  litListCI "SU".toList afterDiscipline s ||
  litListCI "PM".toList afterDiscipline s ||
  litListCI "GE".toList afterDiscipline s

/-- The whole primary pattern anchored at the current position. -/
def primaryAt : List Char → Bool :=
  matchReps Char.isAlpha (litC '_' disciplineGroup) 2 2

/-- `re.search(patterns["primary_format"], filename, re.IGNORECASE)`
(`metadata_extractor.py:736`). -/
def primary_format_search (filename : String) : Bool :=
  reSearch primaryAt filename.toList

/-! ### Special-case grammars (`metadata_extractor.py:617-620`) -/

/-- `meeting_format`: `MTG_([0-9]{6})_([A-Za-z]+)\.([a-z]{3,4})`. -/
def meetingAt : List Char → Bool :=
  litListCI "MTG".toList <| litC '_' <| matchReps Char.isDigit
    (litC '_' <| matchPlus Char.isAlpha <| litC '.' <|
      matchReps Char.isAlpha anyRest 3 4) 6 6

/-- `transmittal_format`: `TXM_([A-Z]{2,4})_([0-9]{3})_([0-9]{6})\.([a-z]{3})`. -/
def transmittalAt : List Char → Bool :=
  litListCI "TXM".toList <| litC '_' <| matchReps Char.isAlpha
    (litC '_' <| matchReps Char.isDigit
      (litC '_' <| matchReps Char.isDigit
        (litC '.' <| matchReps Char.isAlpha anyRest 3 3) 6 6) 3 3) 2 4

/-- `shop_drawing_format`:
`SHOP_([A-Z]{1,2})_([A-Z]+)_([A-Z]+)_([CR]\d{1,2})_([0-9]{6})\.([a-z]{3})`. -/
def shopDrawingAt : List Char → Bool :=
  litListCI "SHOP".toList <| litC '_' <| matchReps Char.isAlpha
    (litC '_' <| matchPlus Char.isAlpha <| litC '_' <|
      matchPlus Char.isAlpha <| litC '_' <|
      matchChar isCRChar <| matchReps Char.isDigit
        (litC '_' <| matchReps Char.isDigit
          (litC '.' <| matchReps Char.isAlpha anyRest 3 3) 6 6) 1 2) 1 2

/-- `as_built_format`: `AB_([A-Z]{1,2})_([A-Z0-9]{1,4})_([0-9]{6})\.([a-z]{3})`. -/
def asBuiltAt : List Char → Bool :=
  litListCI "AB".toList <| litC '_' <| matchReps Char.isAlpha
    (litC '_' <| matchReps Char.isAlphanum
      (litC '_' <| matchReps Char.isDigit
        (litC '.' <| matchReps Char.isAlpha anyRest 3 3) 6 6) 1 4) 1 2

/-- The special-format searches (`metadata_extractor.py:771-772`),
searched on the full filename with `re.IGNORECASE`. -/
def meeting_search (filename : String) : Bool :=
  reSearch meetingAt filename.toList

def transmittal_search (filename : String) : Bool :=
  reSearch transmittalAt filename.toList

def shop_drawing_search (filename : String) : Bool :=
  reSearch shopDrawingAt filename.toList

def as_built_search (filename : String) : Bool :=
  reSearch asBuiltAt filename.toList

/-! ### Legacy fallback searches (`metadata_extractor.py:809-896`)

Each search mirrors one `re.search(...)` call of the legacy branch of
`extract_aec_metadata`, applied to the filename stem.  Patterns whose
`re.search` call passes `re.IGNORECASE` are matched case-insensitively;
the others (`discipline_code`, `phase_code`, `issue_code`,
`sheet_number`) are case-sensitive as in the source. -/

/-- `project_number`: `[A-Z0-9]{3,8}`, `re.IGNORECASE`
(`metadata_extractor.py:814`). -/
def project_number_search (stem : List Char) : Bool :=
  reSearch (matchReps Char.isAlphanum anyRest 3 8) stem

/-- `discipline_code`: `(A|S|G|C|M|E|P|H|F|L|I|T|EN|SU|PM|GE)`,
case-sensitive (`metadata_extractor.py:821`). -/
def discipline_code_search (stem : List Char) : Bool :=
  reSearch (anyTokenCS
    ["A", "S", "G", "C", "M", "E", "P", "H", "F", "L", "I", "T",
     "EN", "SU", "PM", "GE"] anyRest) stem

/-- `document_type` vocabulary, `re.IGNORECASE`
(`metadata_extractor.py:829`, pattern at line 569). -/
def document_type_search (stem : List Char) : Bool :=
  reSearch (anyTokenCI
    ["DWG", "PLN", "SEC", "DTL", "SCH", "CALC", "LOAD", "SIZE", "PAR",
     "RPT", "MEMO", "STUDY", "EVAL", "SPEC", "DIV", "RFI", "SUB", "CO",
     "TXM", "LTR", "BIM", "3D", "CAD", "PHO", "IMG", "PER", "APP", "MTG",
     "SHOP", "AB"] anyRest) stem

/-- `phase_code`: `(PD|SD|DD|CD|CA|CO)`, case-sensitive
(`metadata_extractor.py:837`). -/
def phase_code_search (stem : List Char) : Bool :=
  reSearch (anyTokenCS ["PD", "SD", "DD", "CD", "CA", "CO"] anyRest) stem

/-- `check_print`: `C\d{1,2}`, `re.IGNORECASE`
(`metadata_extractor.py:845`). -/
def check_print_search (stem : List Char) : Bool :=
  reSearch (litListCI "C".toList (matchReps Char.isDigit anyRest 1 2)) stem

/-- `revision`: `R\d{1,2}`, `re.IGNORECASE` (`metadata_extractor.py:851`). -/
def revision_search (stem : List Char) : Bool :=
  reSearch (litListCI "R".toList (matchReps Char.isDigit anyRest 1 2)) stem

/-- `issue_code`: `(IFC|IFB|IFP|AB|RFI|PCO|FOR|CONST|RECORD)`,
case-sensitive (`metadata_extractor.py:858`). -/
def issue_code_search (stem : List Char) : Bool :=
  reSearch (anyTokenCS
    ["IFC", "IFB", "IFP", "AB", "RFI", "PCO", "FOR", "CONST", "RECORD"]
    anyRest) stem

/-- `sheet_number`: `[A-Z0-9]{1,4}`, case-sensitive
(`metadata_extractor.py:865`). -/
def sheet_number_search (stem : List Char) : Bool :=
  reSearch (matchReps isUpperOrDigit anyRest 1 4) stem

/-- `date_format`: `[0-9]{6}` (`metadata_extractor.py:871`). -/
def date_format_search (stem : List Char) : Bool :=
  reSearch (matchReps Char.isDigit anyRest 6 6) stem

/-- `csi_division`: `(0[0-9]|1[0-6]|2[0-9]|3[0-9]|4[0-9])`
(`metadata_extractor.py:877`, pattern at line 613). -/
def csi_division_search (stem : List Char) : Bool :=
  reSearch (fun s =>
    match s with
    | a :: b :: _ =>
      ((a = '0' || a = '2' || a = '3' || a = '4') && b.isDigit) ||
      (a = '1' && ('0' ≤ b && b ≤ '6'))
    | _ => false) stem

/-- `csi_section`: `\d{2}\s?\d{2}\s?\d{2}` (`metadata_extractor.py:882`,
pattern at line 614). -/
def csi_section_search (stem : List Char) : Bool :=
  reSearch (matchReps Char.isDigit
    (matchReps Char.isWhitespace
      (matchReps Char.isDigit
        (matchReps Char.isWhitespace
          (matchReps Char.isDigit anyRest 2 2) 0 1) 2 2) 0 1) 2 2) stem

/-- `submittal_number`: `SUB-\d{3}`, `re.IGNORECASE`
(`metadata_extractor.py:888-890`). -/
def submittal_number_search (stem : List Char) : Bool :=
  reSearch (litListCI "SUB-".toList (matchReps Char.isDigit anyRest 3 3)) stem

/-- `rfi_number`: `RFI-\d{3}`, `re.IGNORECASE`. -/
def rfi_number_search (stem : List Char) : Bool :=
  reSearch (litListCI "RFI-".toList (matchReps Char.isDigit anyRest 3 3)) stem

/-- `change_order`: `CO-\d{3}`, `re.IGNORECASE`. -/
def change_order_search (stem : List Char) : Bool :=
  reSearch (litListCI "CO-".toList (matchReps Char.isDigit anyRest 3 3)) stem

/-- `sku_number`: `SKU-\d{3}`, `re.IGNORECASE`. -/
def sku_number_search (stem : List Char) : Bool :=
  reSearch (litListCI "SKU-".toList (matchReps Char.isDigit anyRest 3 3)) stem

/-! ### The dispatcher `extract_aec_metadata` (`metadata_extractor.py:696`) -/

/-- The classification fields of the `aec_metadata` result relevant to the
grammar claims: matched grammar name, the AEC-standard flag and the
`extracted_elements` list. -/
structure AecMeta where
  naming_format : String
  is_aec_standard : Bool
  extracted_elements : List String
  deriving Repr, DecidableEq

/-- One conditional block of the legacy branch: when the pattern matched,
append the element name to `extracted_elements` and leave the
`is_aec_standard` flag unchanged. -/
def legacyStep (c : Bool) (elem : String) (st : Bool × List String) :
    Bool × List String :=
  if c then (st.1, st.2 ++ [elem]) else st

/-- The revision block of the legacy branch
(`metadata_extractor.py:844-855`): check-print first, else clean
revision; either appends the single element `revision`. -/
def legacyRevisionStep (checkPrint clean : Bool) (st : Bool × List String) :
    Bool × List String :=
  if checkPrint then (st.1, st.2 ++ ["revision"])
  else if clean then (st.1, st.2 ++ ["revision"]) else st

/-- The legacy fallback branch (`metadata_extractor.py:809-911`) as the
sequence of conditional updates of the source: `is_aec_standard` starts
false, is set on a project-number match (line 817), each matched pattern
appends its element name in source order, and a final check sets the flag
when at least two elements were extracted (lines 909-911). -/
def legacy_extract (stem : List Char) : Bool × List String :=
  let st1 := if project_number_search stem then
    ((true : Bool), [] ++ ["project_number"]) else ((false : Bool), [])
  let st2 := legacyStep (discipline_code_search stem) "discipline_code" st1
  let st3 := legacyStep (document_type_search stem) "document_type" st2
  let st4 := legacyStep (phase_code_search stem) "phase_code" st3
  let st5 := legacyRevisionStep (check_print_search stem)
    (revision_search stem) st4
  let st6 := legacyStep (issue_code_search stem) "issue_code" st5
  let st7 := legacyStep (sheet_number_search stem) "sheet_number" st6
  let st8 := legacyStep (date_format_search stem) "date_issued" st7
  let st9 := legacyStep (csi_division_search stem) "csi_division" st8
  let st10 := legacyStep (csi_section_search stem) "csi_section" st9
  let st11 := legacyStep (submittal_number_search stem) "submittal_number" st10
  let st12 := legacyStep (rfi_number_search stem) "rfi_number" st11
  let st13 := legacyStep (change_order_search stem) "change_order" st12
  let st14 := legacyStep (sku_number_search stem) "sku_number" st13
  if 2 ≤ st14.2.length then (true, st14.2) else st14

/-- `extract_aec_metadata` grammar dispatch: primary grammar first
(`metadata_extractor.py:736-761`), then the four special formats in
source order (lines 763-807), then the legacy fallback on the stem
(lines 809-911).  First match wins and stops further matching. -/
def extract_aec_metadata (filename : String) : AecMeta :=
  if primary_format_search filename then
    { naming_format := "primary", is_aec_standard := true,
      extracted_elements :=
        ["phase_code", "discipline_code", "document_type", "sheet_number",
         "revision", "date_issued"] }
  else if meeting_search filename then
    { naming_format := "meeting", is_aec_standard := true,
      extracted_elements := ["date_issued", "document_type"] }
  else if transmittal_search filename then
    { naming_format := "transmittal", is_aec_standard := true,
      extracted_elements := ["date_issued", "document_type"] }
  else if shop_drawing_search filename then
    { naming_format := "shop_drawing", is_aec_standard := true,
      extracted_elements :=
        ["discipline_code", "revision", "date_issued", "document_type"] }
  else if as_built_search filename then
    { naming_format := "as_built", is_aec_standard := true,
      extracted_elements :=
        ["discipline_code", "sheet_number", "date_issued", "document_type"] }
  else
    let r := legacy_extract (fileStem filename).toList
    { naming_format := "legacy", is_aec_standard := r.1,
      extracted_elements := r.2 }

/-- Splitting a character list on a separator (used to name the
underscore-separated fields of a concrete filename). -/
def splitOnChar (c : Char) : List Char → List (List Char)
  | [] => [[]]
  | x :: rest =>
    match splitOnChar c rest with
    | [] => [[]]
    | g :: gs => if x = c then [] :: g :: gs else (x :: g) :: gs

/-! ## Claim C7: extraction dispatch isolation

`MetadataExtractor.extract_metadata` (`metadata_extractor.py:637`) runs
every registered extractor whose `can_extract` accepts the path;
exceptions raised by one extractor are converted into an error string and
do not stop the remaining extractors.  An extractor is modelled by its
name (`__class__.__name__`), its applicability predicate and its
`extract` method; a Python exception is an `Except.error`. -/

/-- A dictionary payload returned by one extractor. -/
abbrev Payload := List (String × String)

/-- One registered extractor. -/
structure RegisteredExtractor where
  name : String
  canExtract : String → Bool
  extract : String → Except String Payload

/-- `ExtractorResult` (`metadata_extractor.py:21`): `extractor_version`
and `extraction_time` carry no logic and are omitted. -/
structure ExtractorResult where
  success : Bool
  metadata : List (String × Payload)
  errors : List String

/-- The extractor loop of `extract_metadata`
(`metadata_extractor.py:652-665`): applicable extractors run in order; an
exception appends `"Error in <name>: <msg>"` to the error list; a truthy
(non-empty) result is stored under the extractor's class name. -/
def runExtractors (path : String) :
    List RegisteredExtractor → List (String × Payload) × List String
  | [] => ([], [])
  | ex :: rest =>
    let tail := runExtractors path rest
    if ex.canExtract path then
      match ex.extract path with
      | .ok r =>
        if r.isEmpty then tail else ((ex.name, r) :: tail.1, tail.2)
      | .error e =>
        (tail.1, ("Error in " ++ ex.name ++ ": " ++ e) :: tail.2)
    else tail

/-- The custom-extractor step (`metadata_extractor.py:667-674`): a single
registry lookup keyed by the lower-cased suffix; its result is stored
unconditionally under `"CustomExtractor"`, and a failure appends
`"Custom extractor error: <msg>"`. -/
def runCustomExtractor (custom : List (String × RegisteredExtractor))
    (path : String) (acc : List (String × Payload) × List String) :
    List (String × Payload) × List String :=
  match custom.find? (fun kv => kv.1 = asciiLower (fileSuffix path)) with
  | some kv =>
    match kv.2.extract path with
    | .ok r => (acc.1 ++ [("CustomExtractor", r)], acc.2)
    | .error e => (acc.1, acc.2 ++ ["Custom extractor error: " ++ e])
  | none => acc

/-- `MetadataExtractor.extract_metadata` (`metadata_extractor.py:637`):
total by construction (the dispatch boundary never re-raises), with
`success` true exactly when some extractor stored a payload
(`metadata_extractor.py:677`). -/
def extract_metadata (extractors : List RegisteredExtractor)
    (custom : List (String × RegisteredExtractor)) (path : String) :
    ExtractorResult :=
  let acc := runCustomExtractor custom path (runExtractors path extractors)
  { success := decide (0 < acc.1.length)
    metadata := acc.1
    errors := acc.2 }

/-- A PDF extractor made to raise on every file it accepts. -/
def pdfRaisingExtractor : RegisteredExtractor :=
  { name := "PDFExtractor"
    canExtract := fun p => asciiLower (fileSuffix p) = ".pdf"
    extract := fun _ => .error "boom" }

/-- A text extractor that always produces a payload. -/
def textDemoExtractor : RegisteredExtractor :=
  { name := "TextFileExtractor"
    canExtract := fun _ => true
    extract := fun _ => .ok [("line_count", "3")] }

/-! ## Catalog/persistence layer (`database_manager.py`)

The SQLite tables of `SCHEMA_SQL` (`database_manager.py:172-283`) are
modelled as lists of row structures with explicit autoincrement counters.
Timestamps are integers; `CURRENT_TIMESTAMP` is supplied by the caller as
`now`. -/

/-- A row of `projects` (`database_manager.py:173-183`). -/
structure ProjectRow where
  id : Nat
  project_number : String
  project_name : String
  base_path : AbsPath
  status : String
  deriving Repr, DecidableEq

/-- A row of `directories` (`database_manager.py:185-198`). -/
structure DirRow where
  id : Nat
  project_id : Nat
  folder_path : AbsPath
  folder_name : String
  deriving Repr, DecidableEq

/-- A row of `files` (`database_manager.py:200-220`).  `file_path` is
`UNIQUE`; `is_active` defaults to true, `scan_count` to 1. -/
structure FileRow where
  id : Nat
  project_id : Nat
  directory_id : Option Nat
  file_name : String
  file_path : AbsPath
  file_extension : String
  file_size : Nat
  file_hash : Option String
  created_at : Int
  modified_at : Int
  last_accessed : Int
  last_scanned : Int
  scan_count : Nat
  is_active : Bool
  deriving Repr, DecidableEq

/-- A row of `file_metadata` (`database_manager.py:222-232`).  Note: the
schema declares no uniqueness beyond the `INTEGER PRIMARY KEY id` — in
particular no `UNIQUE(file_id, metadata_type)`. -/
structure FileMetadataRow where
  id : Nat
  file_id : Nat
  metadata_type : String
  metadata_json : String
  extractor_version : String
  deriving Repr, DecidableEq

/-- A row of `aec_file_metadata` (`database_manager.py:234-255`),
restricted to the columns the queried operations read. -/
structure AecMetadataRow where
  id : Nat
  file_id : Nat
  discipline_code : Option String
  document_type : Option String
  deriving Repr, DecidableEq

/-- A row of `scan_history` (`database_manager.py:257-273`). -/
structure ScanRow where
  id : Nat
  project_id : Nat
  scan_type : String
  start_time : Int
  end_time : Int
  files_scanned : Nat
  files_added : Nat
  files_updated : Nat
  files_removed : Nat
  errors_encountered : Nat
  scan_status : String
  deriving Repr, DecidableEq

/-- The whole relational store. -/
structure DBState where
  projects : List ProjectRow
  directories : List DirRow
  files : List FileRow
  file_metadata : List FileMetadataRow
  aec_file_metadata : List AecMetadataRow
  scan_history : List ScanRow
  next_file_id : Nat
  next_dir_id : Nat
  next_meta_id : Nat
  next_aec_id : Nat
  next_scan_id : Nat
  deriving Repr, DecidableEq

/-- An empty database after `initialize_database` (rowids start at 1). -/
def emptyDB : DBState :=
  { projects := [], directories := [], files := [], file_metadata := []
    aec_file_metadata := [], scan_history := []
    next_file_id := 1, next_dir_id := 1, next_meta_id := 1
    next_aec_id := 1, next_scan_id := 1 }

/-- Rendering of a model path as the absolute POSIX string stored in
`file_path` columns (used for `ORDER BY file_path`). -/
def pathToString (p : AbsPath) : String :=
  p.foldl (fun acc c => acc ++ "/" ++ c) ""

/-- Insertion into a sorted list (SQL `ORDER BY` model). -/
def insertSorted {α : Type} (le : α → α → Bool) (x : α) :
    List α → List α
  | [] => [x]
  | y :: ys => if le x y then x :: y :: ys else y :: insertSorted le x ys

/-- Insertion sort (deterministic model of SQL `ORDER BY`). -/
def sortBy {α : Type} (le : α → α → Bool) : List α → List α
  | [] => []
  | y :: ys => insertSorted le y (sortBy le ys)

/-- `DatabaseManager.get_file_by_path` (`database_manager.py:674`):
lookup by unique absolute path, active or not. -/
def get_file_by_path (db : DBState) (p : AbsPath) : Option FileRow :=
  db.files.find? (fun r => r.file_path = p)

/-- `DatabaseManager.get_files_by_project` (`database_manager.py:706`):
the project's rows with `is_active = true`, ordered by file path. -/
def get_files_by_project (db : DBState) (pid : Nat) : List FileRow :=
  sortBy (fun a b => pathToString a.file_path ≤ pathToString b.file_path)
    (db.files.filter (fun r => r.project_id = pid ∧ r.is_active))

/-- The dictionary passed to `insert_file_record` by the orchestrator
(`main.py:556-567`). -/
structure FileData where
  project_id : Nat
  directory_id : Option Nat
  file_name : String
  file_path : AbsPath
  file_extension : String
  file_size : Nat
  file_hash : Option String
  created_at : Int
  modified_at : Int
  last_accessed : Int
  deriving Repr, DecidableEq

/-- `DatabaseManager.insert_file_record` (`database_manager.py:522`):
upsert keyed by absolute path — if a row with the path exists, update its
mutable fields in place (bump `scan_count`, reassert `is_active`,
`last_scanned = CURRENT_TIMESTAMP`); otherwise insert a new row.
Returns the affected row id. -/
def insert_file_record (db : DBState) (fd : FileData) (now : Int) :
    DBState × Option Nat :=
  match db.files.find? (fun r => r.file_path = fd.file_path) with
  | some existing =>
    ({ db with files := db.files.map (fun r =>
        if r.id = existing.id then
          { r with file_name := fd.file_name
                   file_extension := fd.file_extension
                   file_size := fd.file_size
                   file_hash := fd.file_hash
                   modified_at := fd.modified_at
                   last_accessed := fd.last_accessed
                   last_scanned := now
                   scan_count := r.scan_count + 1
                   is_active := true }
        else r) },
      some existing.id)
  | none =>
    ({ db with
        files := db.files ++
          [{ id := db.next_file_id
             project_id := fd.project_id
             directory_id := fd.directory_id
             file_name := fd.file_name
             file_path := fd.file_path
             file_extension := fd.file_extension
             file_size := fd.file_size
             file_hash := fd.file_hash
             created_at := fd.created_at
             modified_at := fd.modified_at
             last_accessed := fd.last_accessed
             last_scanned := now
             scan_count := 1
             is_active := true }]
        next_file_id := db.next_file_id + 1 },
      some db.next_file_id)

/-- One metadata entry handed to `update_file_metadata`: either a generic
extractor payload stored as JSON, or the AEC naming-convention record. -/
inductive MetadataItem where
  | generic (metadata_type : String) (metadata_json : String)
      (extractor_version : String)
  | aec (discipline_code document_type : Option String)
  deriving Repr, DecidableEq

/-- `DatabaseManager._insert_aec_metadata` (`database_manager.py:637`):
delete-then-insert per file. -/
def insert_aec_metadata (db : DBState) (file_id : Nat)
    (disc dt : Option String) : DBState :=
  { db with
      aec_file_metadata :=
        db.aec_file_metadata.filter (fun r => r.file_id ≠ file_id) ++
          [{ id := db.next_aec_id, file_id := file_id
             discipline_code := disc, document_type := dt }]
      next_aec_id := db.next_aec_id + 1 }

/-- SQLite `INSERT OR REPLACE INTO file_metadata ...` without an explicit
`id` (`database_manager.py:616-628`): `OR REPLACE` deletes rows that
would violate a uniqueness constraint with the new row.  Per `SCHEMA_SQL`
the table's only unique column is the autoincrement `id`, and the fresh
rowid collides with nothing, so the statement always appends. -/
def sqliteInsertOrReplace_file_metadata (db : DBState) (file_id : Nat)
    (mtype json ver : String) : DBState :=
  let newRow : FileMetadataRow :=
    { id := db.next_meta_id, file_id := file_id, metadata_type := mtype
      metadata_json := json, extractor_version := ver }
  { db with
      file_metadata :=
        db.file_metadata.filter (fun r => r.id ≠ newRow.id) ++ [newRow]
      next_meta_id := db.next_meta_id + 1 }

/-- `DatabaseManager.update_file_metadata` (`database_manager.py:594`):
iterate over the extraction result; `aec_metadata` goes through the
delete-then-insert helper, every other type through
`INSERT OR REPLACE INTO file_metadata`. -/
def update_file_metadata (db : DBState) (file_id : Nat)
    (metadata : List MetadataItem) : DBState :=
  metadata.foldl (fun acc it =>
    match it with
    | .aec d dt => insert_aec_metadata acc file_id d dt
    | .generic t j v =>
      sqliteInsertOrReplace_file_metadata acc file_id t j v) db

/-- `DatabaseManager.record_scan_session` (`database_manager.py:815`):
append one immutable `scan_history` row, returning its id. -/
def record_scan_session (db : DBState) (pid : Nat) (scan_type : String)
    (start_time end_time : Int)
    (scanned added updated removed errs : Nat) (status : String) :
    DBState × Option Nat :=
  ({ db with
      scan_history := db.scan_history ++
        [{ id := db.next_scan_id, project_id := pid, scan_type := scan_type
           start_time := start_time, end_time := end_time
           files_scanned := scanned, files_added := added
           files_updated := updated, files_removed := removed
           errors_encountered := errs, scan_status := status }]
      next_scan_id := db.next_scan_id + 1 },
    some db.next_scan_id)

/-- Search criteria of `get_files_by_criteria`
(`database_manager.py:745`): each optional key adds one `WHERE` clause. -/
structure FileCriteria where
  project_id : Option Nat
  file_extension : Option String
  discipline_code : Option String
  document_type : Option String
  modified_after : Option Int
  file_size_min : Option Nat
  file_size_max : Option Nat
  deriving Repr, DecidableEq

/-- `LEFT JOIN aec_file_metadata aec ON f.id = aec.file_id`: one joined
row per matching AEC record, or a single null-extended row. -/
def leftJoinAec (aecTable : List AecMetadataRow) (f : FileRow) :
    List (FileRow × Option AecMetadataRow) :=
  match aecTable.filter (fun a => a.file_id = f.id) with
  | [] => [(f, none)]
  | hits => hits.map (fun a => (f, some a))

/-- The `WHERE` clause of `get_files_by_criteria`
(`database_manager.py:760-789`): `f.is_active = true` always, plus one
conjunct per provided criterion (a comparison with SQL `NULL` is false,
so aec criteria reject null-extended rows). -/
def criteriaMatch (c : FileCriteria)
    (row : FileRow × Option AecMetadataRow) : Bool :=
  row.1.is_active &&
  (match c.project_id with
   | some pid => row.1.project_id = pid
   | none => true) &&
  (match c.file_extension with
   | some e => row.1.file_extension = e
   | none => true) &&
  (match c.discipline_code with
   | some d =>
     match row.2 with
     | some a => a.discipline_code = some d
     | none => false
   | none => true) &&
  (match c.document_type with
   | some d =>
     match row.2 with
     | some a => a.document_type = some d
     | none => false
   | none => true) &&
  (match c.modified_after with
   | some t => decide (t < row.1.modified_at)
   | none => true) &&
  (match c.file_size_min with
   | some n => decide (n ≤ row.1.file_size)
   | none => true) &&
  (match c.file_size_max with
   | some n => decide (row.1.file_size ≤ n)
   | none => true)

/-- `DatabaseManager.get_files_by_criteria` (`database_manager.py:745`):
left-join against AEC metadata, apply the dynamic `WHERE` clause (which
always includes `f.is_active = true`), order by `modified_at DESC`. -/
def get_files_by_criteria (db : DBState) (c : FileCriteria) :
    List (FileRow × Option AecMetadataRow) :=
  sortBy (fun a b => b.1.modified_at ≤ a.1.modified_at)
    ((db.files.flatMap (leftJoinAec db.aec_file_metadata)).filter
      (criteriaMatch c))

/-- The aggregate record built by `get_project_statistics`
(`database_manager.py:860`). -/
structure ProjectStatistics where
  total_files : Nat
  total_size_bytes : Nat
  file_types : List (String × Nat × Nat)
  disciplines : List (Option String × Nat)
  recent_scans : List (String × Int × Nat × String)
  deriving Repr, DecidableEq

/-- `GROUP BY file_extension ORDER BY COUNT(*) DESC` over the active rows
(`database_manager.py:886-900`); a falsy extension displays as
`no_extension`. -/
def fileTypeHistogram (rows : List FileRow) : List (String × Nat × Nat) :=
  sortBy (fun a b => b.2.1 ≤ a.2.1)
    (((rows.map (fun r => r.file_extension)).dedup).map (fun e =>
      (if e = "" then "no_extension" else e,
       (rows.filter (fun r => r.file_extension = e)).length,
       ((rows.filter (fun r => r.file_extension = e)).map
         (fun r => r.file_size)).sum)))

/-- The discipline histogram joins AEC rows against active files of the
project (`database_manager.py:903-917`). -/
def disciplineHistogram (db : DBState) (pid : Nat) :
    List (Option String × Nat) :=
  let joined := db.aec_file_metadata.filter (fun a =>
    db.files.any (fun f =>
      f.id = a.file_id ∧ f.project_id = pid ∧ f.is_active))
  ((joined.map (fun a => a.discipline_code)).dedup).map (fun d =>
    (d, (joined.filter (fun a => a.discipline_code = d)).length))

/-- `DatabaseManager.get_project_statistics` (`database_manager.py:860`):
counts and histograms over `is_active = true` rows only, plus the five
most recent scan sessions. -/
def get_project_statistics (db : DBState) (pid : Nat) : ProjectStatistics :=
  let active := db.files.filter (fun r => r.project_id = pid ∧ r.is_active)
  { total_files := active.length
    total_size_bytes := (active.map (fun r => r.file_size)).sum
    file_types := fileTypeHistogram active
    disciplines := disciplineHistogram db pid
    recent_scans :=
      ((sortBy (fun a b => b.end_time ≤ a.end_time)
        (db.scan_history.filter (fun s => s.project_id = pid))).take 5).map
        (fun s => (s.scan_type, s.end_time, s.files_scanned, s.scan_status)) }

/-- Dropping the inactive file rows from the store (the rows a full scan
marks "removed"). -/
def removeInactiveFiles (db : DBState) : DBState :=
  { db with files := db.files.filter (fun r => r.is_active) }

/-- An active catalog row for the C10 witness. -/
def c10ActiveRow : FileRow :=
  { id := 1, project_id := 1, directory_id := some 1, file_name := "a.txt"
    file_path := ["p", "a.txt"], file_extension := ".txt", file_size := 4
    file_hash := none, created_at := 1, modified_at := 2, last_accessed := 3
    last_scanned := 4, scan_count := 1, is_active := true }

/-- A removed (inactive) catalog row for the C10 witness. -/
def c10InactiveRow : FileRow :=
  { id := 2, project_id := 1, directory_id := some 1, file_name := "b.txt"
    file_path := ["p", "b.txt"], file_extension := ".txt", file_size := 4
    file_hash := none, created_at := 1, modified_at := 2, last_accessed := 3
    last_scanned := 4, scan_count := 2, is_active := false }

/-- A store with one active and one removed row. -/
def c10db : DBState :=
  { emptyDB with files := [c10ActiveRow, c10InactiveRow], next_file_id := 3 }

/-- The empty criteria dictionary. -/
def noCriteria : FileCriteria :=
  { project_id := none, file_extension := none, discipline_code := none
    document_type := none, modified_after := none, file_size_min := none
    file_size_max := none }

/-! ## Scan orchestrator (`main.py:454-653`)

`AECDirectoryScanner.scan_project` and its helpers.  The environment
bundles the on-disk tree, the scanner configuration and the wall clock
(every `datetime.now` / `CURRENT_TIMESTAMP` of one invocation). -/

/-- Ambient state of one orchestrator invocation. -/
structure ScanEnv where
  disk : Disk
  cfg : ScannerConfig
  now : Int

/-- `Path(p).parents[2]` (`main.py:494`): the third ancestor, raising
`IndexError` (modelled as `none`) when the path has fewer than three
ancestors. -/
def pathParents2 (p : AbsPath) : Option AbsPath :=
  if 3 ≤ p.length then some (p.take (p.length - 3)) else none

/-- `datetime.min` fallback of the incremental branch (`main.py:531`). -/
def minTime : Int := -(10 ^ 18)

/-- `SELECT MAX(end_time) FROM scan_history WHERE project_id = ? AND
scan_status = 'completed'` (`main.py:519-531`). -/
def last_completed_scan_time (db : DBState) (pid : Nat) : Int :=
  ((db.scan_history.filter (fun s =>
      s.project_id = pid ∧ s.scan_status = "completed")).map
    (fun s => s.end_time)).foldl max minTime

/-- `AECDirectoryScanner._get_or_create_directory_id` (`main.py:1056`). -/
def get_or_create_directory_id (db : DBState) (pid : Nat)
    (dirPath : AbsPath) : DBState × Option Nat :=
  match db.directories.find? (fun d =>
      d.project_id = pid ∧ d.folder_path = dirPath) with
  | some d => (db, some d.id)
  | none =>
    ({ db with
        directories := db.directories ++
          [{ id := db.next_dir_id, project_id := pid
             folder_path := dirPath
             folder_name := dirPath.getLast?.getD "" }]
        next_dir_id := db.next_dir_id + 1 },
      some db.next_dir_id)

/-- `AECDirectoryScanner._validate_scan_results` (`main.py:1019`): keep
new files and files whose on-disk modification time is newer than the
cataloged one. -/
def validate_scan_results (db : DBState) (results : List FileInfo) :
    List FileInfo :=
  results.filter (fun fi =>
    match get_file_by_path db fi.file_path with
    | some existing => decide (existing.modified_at < fi.modified_time)
    | none => true)

/-- One iteration of the upsert loop of `scan_project`
(`main.py:550-581`): look up prior existence, get-or-create the parent
directory record, upsert the file row, and classify added vs updated. -/
def process_one (pid : Nat) (now : Int) (acc : DBState × Nat × Nat)
    (fi : FileInfo) : DBState × Nat × Nat :=
  let existing := get_file_by_path acc.1 fi.file_path
  let step1 := get_or_create_directory_id acc.1 pid fi.parent_directory
  let fd : FileData :=
    { project_id := pid, directory_id := step1.2
      file_name := fi.file_name, file_path := fi.file_path
      file_extension := fi.file_extension, file_size := fi.file_size
      file_hash := fi.file_hash, created_at := fi.created_time
      modified_at := fi.modified_time, last_accessed := fi.accessed_time }
  let step2 := insert_file_record step1.1 fd now
  match step2.2 with
  | some _ =>
    match existing with
    | some _ => (step2.1, acc.2.1, acc.2.2 + 1)
    | none => (step2.1, acc.2.1 + 1, acc.2.2)
  | none => (step2.1, acc.2.1, acc.2.2)

/-- The upsert loop of `scan_project`: returns the updated store and the
`(files_added, files_updated)` counters. -/
def process_scan_results (db : DBState) (pid : Nat)
    (results : List FileInfo) (now : Int) : DBState × Nat × Nat :=
  results.foldl (process_one pid now) (db, 0, 0)

/-- The removal condition of `_detect_removed_files` (`main.py:1126`):
path not observed in this scan and no longer present on disk. -/
def removalCond (current : List AbsPath) (disk : Disk) (r : FileRow) :
    Bool :=
  !(current.contains r.file_path) && !(pathExists disk r.file_path)

/-- `UPDATE files SET is_active = false, last_scanned = ? WHERE id = ?`
(`main.py:1128-1131`), applied to one row value. -/
def markRemoved (now : Int) (x : FileRow) : FileRow :=
  { x with is_active := false, last_scanned := now }

/-- One iteration of `_detect_removed_files` over the snapshot of the
project's active rows. -/
def detect_one (current : List AbsPath) (disk : Disk) (now : Int)
    (acc : DBState × Nat) (r : FileRow) : DBState × Nat :=
  if removalCond current disk r then
    ({ acc.1 with files := acc.1.files.map (fun x =>
        if x.id = r.id then markRemoved now x else x) },
      acc.2 + 1)
  else acc

/-- `AECDirectoryScanner._detect_removed_files` (`main.py:1099`): fetch
the project's active rows once, then mark each unobserved, off-disk row
inactive, counting the updates.  Invoked by `scan_project` for every
scan type (`main.py:595`). -/
def detect_removed_files (db : DBState) (pid : Nat)
    (current : List AbsPath) (disk : Disk) (now : Int) : DBState × Nat :=
  (get_files_by_project db pid).foldl (detect_one current disk now) (db, 0)

/-- Outcome of the project-path resolution prologue of `scan_project`
(`main.py:474-494`). -/
inductive Resolution where
  | notFound
  | resolved (p : AbsPath)
  | crashed
  deriving Repr, DecidableEq

/-- The resolution prologue: when the project already has active file
rows, the scan root is re-derived as `Path(first_row.file_path).parents[2]`
(`main.py:493-494`, comment "Go up to project root"), raising `IndexError`
(`crashed`) for paths with fewer than three ancestors; only a project
without cataloged files reads `base_path` from the `projects` table. -/
def resolve_project_path (db : DBState) (pid : Nat) : Resolution :=
  match (get_files_by_project db pid).take 1 with
  | [] =>
    match db.projects.find? (fun p => p.id = pid) with
    | none => .notFound
    | some row => .resolved row.base_path
  | first :: _ =>
    match pathParents2 first.file_path with
    | some p => .resolved p
    | none => .crashed

/-- Scan-strategy selection (`main.py:505-543`): full walk, incremental
filter against the last completed session, or validation filtering
against catalog state; any other scan type leaves the initial empty
result list. -/
def select_scan_results (env : ScanEnv) (db : DBState) (pid : Nat)
    (stype : String) (root : AbsPath) : List FileInfo :=
  if stype = "full" then scan_directory env.cfg env.disk root
  else if stype = "incremental" then
    incremental_scan env.cfg env.disk root (last_completed_scan_time db pid)
  else if stype = "validation" then
    validate_scan_results db (scan_directory env.cfg env.disk root)
  else []

/-- The summary dictionary returned by `scan_project`
(`main.py:609-620`, failure shapes at 484-501 and 648-653). -/
structure ScanResultSummary where
  success : Bool
  scan_session_id : Option Nat
  files_scanned : Nat
  files_added : Nat
  files_updated : Nat
  errors_encountered : Nat
  deriving Repr, DecidableEq

/-- The tail of `scan_project` once the scan results are in hand
(`main.py:545-620`): upsert loop, removed-file reconciliation (for every
scan type), session recording, and the success summary. -/
def scan_project_with_results (env : ScanEnv) (db : DBState) (pid : Nat)
    (stype : String) (results : List FileInfo) : DBState × ScanResultSummary :=
  let step1 := process_scan_results db pid results env.now
  let step2 := detect_removed_files step1.1 pid
    (results.map (fun fi => fi.file_path)) env.disk env.now
  let step3 := record_scan_session step2.1 pid stype env.now env.now
    results.length step1.2.1 step1.2.2 step2.2 0 "completed"
  (step3.1,
    { success := true, scan_session_id := step3.2
      files_scanned := results.length, files_added := step1.2.1
      files_updated := step1.2.2, errors_encountered := 0 })

/-- `AECDirectoryScanner.scan_project` (`main.py:454-653`): resolve the
project path (returning a failure summary without recording a session
when the project id is unknown or the resolved path does not exist),
catch the resolution `IndexError` in the outer handler which records a
failed session (`main.py:629-646`), and otherwise run the selected scan
and the reconciliation tail. -/
def scan_project (env : ScanEnv) (db : DBState) (pid : Nat)
    (stype : String) : DBState × ScanResultSummary :=
  match resolve_project_path db pid with
  | .notFound =>
    (db, { success := false, scan_session_id := none, files_scanned := 0
           files_added := 0, files_updated := 0, errors_encountered := 0 })
  | .crashed =>
    let rec1 := record_scan_session db pid stype env.now env.now 0 0 0 0 1
      "failed"
    (rec1.1,
      { success := false, scan_session_id := none, files_scanned := 0
        files_added := 0, files_updated := 0, errors_encountered := 1 })
  | .resolved root =>
    if pathExists env.disk root then
      scan_project_with_results env db pid stype
        (select_scan_results env db pid stype root)
    else
      (db, { success := false, scan_session_id := none, files_scanned := 0
             files_added := 0, files_updated := 0, errors_encountered := 0 })

/-- Orchestrator environment for the C1 scenarios. -/
def c1env : ScanEnv :=
  { disk := demoDisk, cfg := defaultScannerConfig, now := 50 }

/-- A catalog knowing project 7 whose base path does not exist on disk. -/
def c1dbMissingPath : DBState :=
  { emptyDB with projects :=
      [{ id := 7, project_number := "P7", project_name := "Ghost"
         base_path := ["nope"], status := "active" }] }

/-! ## Claim C2: idempotent re-scan

The second full scan does not re-read `base_path`: once the project has
cataloged files, `scan_project` re-derives the scan root as
`Path(first_file.file_path).parents[2]` (`main.py:493-494`).  For the
project below (base path `/p`, one file `/p/a.txt`) that access raises
`IndexError` — `/p/a.txt` has only two ancestors — so the second run is
caught by the outer handler and recorded as a failed session with zero
counts instead of `files_updated = N`. -/

def c2meta : FileMeta :=
  { size := 4, ctime := 10, mtime := 20, atime := 30, contentHash := "h" }

def c2disk : Disk := [.dir "p" [.file "a.txt" c2meta]]

def c2env : ScanEnv :=
  { disk := c2disk, cfg := defaultScannerConfig, now := 100 }

def c2db0 : DBState :=
  { emptyDB with projects :=
      [{ id := 1, project_number := "P1", project_name := "Proj"
         base_path := ["p"], status := "active" }] }

def c2info : FileInfo :=
  { file_path := ["p", "a.txt"], file_name := "a.txt"
    file_extension := ".txt", file_size := 4, created_time := 10
    modified_time := 20, accessed_time := 30, parent_directory := ["p"]
    depth_level := 0, file_hash := none }

/-- Disk for the C3 scenario: directories `a/b/c` with the cataloged
file deleted. -/
def c3disk : Disk := [.dir "a" [.dir "b" [.dir "c" []]]]

/-- Environment for the C3 scenario. -/
def c3env : ScanEnv :=
  { disk := c3disk, cfg := defaultScannerConfig, now := 200 }

/-- The cataloged row whose on-disk file has been deleted (three levels
deep, so path re-resolution succeeds). -/
def c3goneRow : FileRow :=
  { id := 1, project_id := 1, directory_id := some 1
    file_name := "gone.txt", file_path := ["a", "b", "c", "gone.txt"]
    file_extension := ".txt", file_size := 4, file_hash := none
    created_at := 1, modified_at := 2, last_accessed := 3
    last_scanned := 4, scan_count := 1, is_active := true }

/-- Catalog before the incremental scan of the C3 scenario. -/
def c3db : DBState :=
  { emptyDB with
      projects :=
        [{ id := 1, project_number := "P1", project_name := "Proj"
           base_path := ["a", "b", "c"], status := "active" }]
      files := [c3goneRow]
      next_file_id := 2 }

example : fileSuffix "a.TXT" = ".TXT" := by decide

example : fileSuffix ".hidden" = "" := by decide

example : fileSuffix "a.b.c" = ".c" := by decide

example : fileStem "zzz.bin" = "zzz" := by decide

example : fileStem ".hidden" = ".hidden" := by decide

example : asciiLower ".TmP" = ".tmp" := by decide

example : startsWithDot ".git" = true := by decide

/-! ## Scanner lemmas (claims C8 and C9) -/

/-- The two scanners' exclusion predicates are the same function. -/
theorem should_exclude_file_async_eq :
    should_exclude_file_async = should_exclude_file := rfl

/-- The two scanners' per-file processing produces the same descriptor. -/
theorem process_file_async_eq : process_file_async = process_file := rfl

/-- The per-directory file blocks of the two scanners coincide. -/
theorem asyncFiles_eq_threadFiles (cfg : ScannerConfig) (p : AbsPath)
    (d : Nat) : (cs : List FSEntry) →
    asyncFiles cfg p d cs = threadFiles cfg p d cs
  | [] => rfl
  | .file n m :: rest => by
    simp only [asyncFiles, threadFiles, process_file_async_eq,
      asyncFiles_eq_threadFiles cfg p d rest]
  | .dir n cs' :: rest => by
    simp only [asyncFiles, threadFiles, asyncFiles_eq_threadFiles cfg p d rest]

/-- Core of the set-equality claim: the subdirectory blocks of the two
scanners contain the same descriptors. -/
theorem mem_threadDirs_iff_asyncDirs (cfg : ScannerConfig) :
    (cs : List FSEntry) → (p : AbsPath) → (d : Nat) → (x : FileInfo) →
    (x ∈ threadDirs cfg p d cs ↔ x ∈ asyncDirs cfg p d cs)
  | [], _, _, _ => by simp [threadDirs, asyncDirs]
  | .file n m :: rest, p, d, x => by
    simpa only [threadDirs, asyncDirs] using
      mem_threadDirs_iff_asyncDirs cfg rest p d x
  | .dir n cs' :: rest, p, d, x => by
    have ih1 := mem_threadDirs_iff_asyncDirs cfg cs' (p ++ [n]) (d + 1) x
    have ih2 := mem_threadDirs_iff_asyncDirs cfg rest p d x
    rcases h : should_exclude_directory cfg n with _ | _
    · simp only [threadDirs, asyncDirs, asyncFiles_eq_threadFiles, h,
        Bool.false_eq_true, if_false, List.mem_append] at *
      tauto
    · simp only [threadDirs, asyncDirs, h, if_true, List.nil_append] at *
      tauto

/-- Descriptor-level set equality of the two recursive scans. -/
theorem mem_threadScanList_iff_asyncScanList (cfg : ScannerConfig)
    (cs : List FSEntry) (p : AbsPath) (d : Nat) (x : FileInfo) :
    x ∈ threadScanList cfg p d cs ↔ x ∈ asyncScanList cfg p d cs := by
  simp only [threadScanList, asyncScanList, asyncFiles_eq_threadFiles,
    List.mem_append]
  have := mem_threadDirs_iff_asyncDirs cfg cs p d x
  tauto

/-- Every descriptor of a file block passed the exclusion filter and
carries the lower-cased suffix as its extension. -/
theorem threadFiles_excludes (cfg : ScannerConfig) :
    (cs : List FSEntry) → (p : AbsPath) → (d : Nat) → (x : FileInfo) →
    x ∈ threadFiles cfg p d cs →
    should_exclude_file cfg x.file_name = false ∧
      x.file_extension = asciiLower (fileSuffix x.file_name)
  | [], _, _, _, hx => absurd hx (List.not_mem_nil _)
  | .file n m :: rest, p, d, x, hx => by
    revert hx
    simp only [threadFiles]
    rcases hpf : process_file cfg p d n m with _ | fi
    · exact threadFiles_excludes cfg rest p d x
    · intro hx
      rcases List.mem_cons.mp hx with hx | hx
      · subst hx
        revert hpf
        unfold process_file
        by_cases he : should_exclude_file cfg n = true
        · simp [he]
        · simp only [Bool.not_eq_true] at he
          simp only [he, Bool.false_eq_true, if_false, Option.some.injEq]
          rintro rfl
          exact ⟨he, rfl⟩
      · exact threadFiles_excludes cfg rest p d x hx
  | .dir n cs' :: rest, p, d, x, hx => by
    simp only [threadFiles] at hx
    exact threadFiles_excludes cfg rest p d x hx

/-- Every descriptor of a subdirectory block passed the exclusion filter. -/
theorem threadDirs_excludes (cfg : ScannerConfig) :
    (cs : List FSEntry) → (p : AbsPath) → (d : Nat) → (x : FileInfo) →
    x ∈ threadDirs cfg p d cs →
    should_exclude_file cfg x.file_name = false ∧
      x.file_extension = asciiLower (fileSuffix x.file_name)
  | [], _, _, _, hx => by simp [threadDirs] at hx
  | .file n m :: rest, p, d, x, hx => by
    simp only [threadDirs] at hx
    exact threadDirs_excludes cfg rest p d x hx
  | .dir n cs' :: rest, p, d, x, hx => by
    simp only [threadDirs, List.mem_append] at hx
    rcases hx with hx | hx
    · by_cases h : should_exclude_directory cfg n = true
      · simp [h] at hx
      · simp only [Bool.not_eq_true] at h
        simp only [h, Bool.false_eq_true, if_false, List.mem_append] at hx
        rcases hx with hx | hx
        · exact threadDirs_excludes cfg cs' (p ++ [n]) (d + 1) x hx
        · exact threadFiles_excludes cfg cs' (p ++ [n]) (d + 1) x hx
    · exact threadDirs_excludes cfg rest p d x hx

/-- Exclusion correctness for a whole thread-pool scan. -/
theorem scan_directory_excludes (cfg : ScannerConfig) (disk : Disk)
    (root : AbsPath) (x : FileInfo) (hx : x ∈ scan_directory cfg disk root) :
    should_exclude_file cfg x.file_name = false ∧
      x.file_extension = asciiLower (fileSuffix x.file_name) := by
  revert hx
  unfold scan_directory
  rcases dirChildren disk root with _ | cs
  · intro hx; exact absurd hx (List.not_mem_nil _)
  · intro hx
    simp only [threadScanList, List.mem_append] at hx
    rcases hx with hx | hx
    · exact threadDirs_excludes cfg cs root 0 x hx
    · exact threadFiles_excludes cfg cs root 0 x hx

/-- C8: for the same input tree, the thread-pool scanner
(`FileSystemScanner.scan_directory`) and the cooperative-async scanner
(`AsyncFileSystemScanner.scan_directory_async`) produce set-equal lists of
file descriptors, and in the output of either scanner no hidden file
(other than the reserved `.aec_project_metadata.json`) and no file whose
extension is in the excluded set is ever present. -/
theorem C8_scanner_equivalence_and_exclusion (cfg : ScannerConfig)
    (disk : Disk) (root : AbsPath) (x : FileInfo) :
    (x ∈ scan_directory cfg disk root ↔
      x ∈ scan_directory_async cfg disk root) ∧
    (x ∈ scan_directory cfg disk root →
      (startsWithDot x.file_name = true →
        x.file_name = ".aec_project_metadata.json") ∧
      cfg.excluded_extensions.contains x.file_extension = false) := by
  constructor
  · unfold scan_directory scan_directory_async
    rcases dirChildren disk root with _ | cs
    · exact Iff.rfl
    · exact mem_threadScanList_iff_asyncScanList cfg cs root 0 x
  · intro hx
    obtain ⟨hexcl, hext⟩ := scan_directory_excludes cfg disk root x hx
    revert hexcl
    unfold should_exclude_file
    rcases hc : cfg.excluded_extensions.contains (asciiLower (fileSuffix x.file_name)) with _ | _
    · simp only [Bool.false_eq_true, if_false]
      rcases hh : startsWithDot x.file_name with _ | _
      · intro _
        refine ⟨fun habs => absurd habs (by simp [hh]), ?_⟩
        rw [hext]; exact hc
      · by_cases hne : x.file_name = ".aec_project_metadata.json"
        · intro _
          refine ⟨fun _ => hne, ?_⟩
          rw [hext]; exact hc
        · simp [hh, hne]
    · simp

/-- Witness for C8: on the sample tree, the regular file is reported by
both scanners and satisfies the exclusion guarantees. -/
theorem C8_scanner_equivalence_and_exclusion_witness :
    demoInfo ∈ scan_directory_async defaultScannerConfig demoDisk ["proj"] ∧
    (startsWithDot demoInfo.file_name = true →
      demoInfo.file_name = ".aec_project_metadata.json") ∧
    defaultScannerConfig.excluded_extensions.contains
      demoInfo.file_extension = false := by
  have hg : should_exclude_directory defaultScannerConfig ".git" = true := by
    decide
  have hch : dirChildren demoDisk ["proj"] =
      some [.file ".hidden" demoMeta, .file "junk.tmp" demoMeta,
            .file "b.txt" demoMeta, .dir ".git" [.file "config" demoMeta]] := rfl
  have hev : scan_directory defaultScannerConfig demoDisk ["proj"] =
      [demoInfo] := by
    simp only [scan_directory, hch, threadScanList, threadDirs, threadFiles,
      hg, if_true, List.nil_append, List.append_nil]
    decide
  have h := C8_scanner_equivalence_and_exclusion defaultScannerConfig
    demoDisk ["proj"] demoInfo
  have hmem : demoInfo ∈ scan_directory defaultScannerConfig demoDisk ["proj"] := by
    rw [hev]; exact List.mem_singleton.mpr rfl
  exact ⟨h.1.mp hmem, h.2 hmem⟩

/-- C9: for every tree and cutoff `T`, an incremental scan (in either
scanner) returns exactly those descriptors of the corresponding full scan
whose modified time or created time is strictly greater than `T`
(`file_scanner.py:329`, `async_file_scanner.py:298`). -/
theorem C9_incremental_scan_filters_full_scan (cfg : ScannerConfig)
    (disk : Disk) (root : AbsPath) (T : Int) (x : FileInfo) :
    (x ∈ incremental_scan cfg disk root T ↔
      x ∈ scan_directory cfg disk root ∧
        (T < x.modified_time ∨ T < x.created_time)) ∧
    (x ∈ incremental_scan_async cfg disk root T ↔
      x ∈ scan_directory_async cfg disk root ∧
        (T < x.modified_time ∨ T < x.created_time)) := by
  constructor
  · unfold incremental_scan
    simp [List.mem_filter]
  · unfold incremental_scan_async
    simp [List.mem_filter]

example : primary_format_search "CD_A_DWG_001_R3_031524.pdf" = true := by
  decide

example : primary_format_search "CD_A_DWG_001_QQQQ_031524.pdf" = true := by
  decide

example : primary_format_search "CD_A_DWG_001_R3_0315247.pdf" = false := by
  decide

example :
    primary_format_search "PROJ123_CD_S_DWG_S201_IFC_2024-05-01.pdf"
      = false := by decide

example : primary_format_search "zzz.bin" = false := by decide

example : meeting_search "MTG_031524_Progress.pdf" = true := by decide

example : as_built_search "AB_A_001_031524.pdf" = true := by decide

/-! ## Claim C4: legacy-path standard classification -/

/-- `legacyStep` never touches the `is_aec_standard` flag. -/
theorem legacyStep_fst (c : Bool) (e : String) (st : Bool × List String) :
    (legacyStep c e st).1 = st.1 := by
  unfold legacyStep; split <;> rfl

/-- `legacyRevisionStep` never touches the `is_aec_standard` flag. -/
theorem legacyRevisionStep_fst (c1 c2 : Bool) (st : Bool × List String) :
    (legacyRevisionStep c1 c2 st).1 = st.1 := by
  unfold legacyRevisionStep; split
  · rfl
  · split <;> rfl

/-- The project-number block sets the flag exactly on a match. -/
theorem set_if_fst (c : Bool) (a b : List String) :
    (if c then ((true : Bool), a) else (false, b)).1 = c := by cases c <;> rfl

/-- The final two-element check, flag component. -/
theorem final_if_fst (p : Prop) [Decidable p] (st : Bool × List String) :
    (if p then ((true : Bool), st.2) else st).1 = (decide p || st.1) := by
  by_cases h : p <;> simp [h]

/-- The final two-element check leaves the element list unchanged. -/
theorem final_if_snd (p : Prop) [Decidable p] (st : Bool × List String) :
    (if p then ((true : Bool), st.2) else st).2 = st.2 := by
  by_cases h : p <;> simp [h]

/-- Flag characterisation of the legacy branch: AEC-standard iff a
project-number token matched or at least two elements were extracted. -/
theorem legacy_extract_fst (stem : List Char) :
    (legacy_extract stem).1 =
      (project_number_search stem ||
        decide (2 ≤ (legacy_extract stem).2.length)) := by
  unfold legacy_extract
  simp only [final_if_fst, final_if_snd, legacyStep_fst,
    legacyRevisionStep_fst, set_if_fst]
  rw [Bool.or_comm]

/-- Counterexample to C4: the filename `zzz.bin` matches no grammar, the
legacy path recovers exactly one field (the permissive project-number
pattern `[A-Z0-9]{3,8}` under `re.IGNORECASE` matches `zzz`), yet the
file is classified AEC-standard because line 817 of
`metadata_extractor.py` sets the flag on the project-number match alone,
before the two-element check of lines 909-911. -/
theorem C4_legacy_single_field_counterexample :
    (extract_aec_metadata "zzz.bin").naming_format = "legacy" ∧
    (extract_aec_metadata "zzz.bin").extracted_elements =
      ["project_number"] ∧
    (extract_aec_metadata "zzz.bin").is_aec_standard = true := by decide

/-- C4, amended: when neither the primary grammar nor any special-case
grammar matches, the legacy path classifies the filename as AEC-standard
exactly when a project-number token was recovered or at least two
distinct fields were recovered; fewer than two fields therefore do not
imply a non-standard classification when one of them is the project
number. -/
theorem C4_legacy_standard_iff_amended (filename : String)
    (h : (extract_aec_metadata filename).naming_format = "legacy") :
    (extract_aec_metadata filename).is_aec_standard =
      (project_number_search (fileStem filename).toList ||
        decide (2 ≤ (extract_aec_metadata filename).extracted_elements.length)) := by
  unfold extract_aec_metadata at h ⊢
  split_ifs at h ⊢ with h1 h2 h3 h4 h5
  · exact absurd h (by decide)
  · exact absurd h (by decide)
  · exact absurd h (by decide)
  · exact absurd h (by decide)
  · exact absurd h (by decide)
  · exact legacy_extract_fst _

/-- Witness for the amended C4 at the single-field filename. -/
theorem C4_legacy_standard_iff_amended_witness :
    (extract_aec_metadata "zzz.bin").naming_format = "legacy" ∧
    (extract_aec_metadata "zzz.bin").is_aec_standard =
      (project_number_search (fileStem "zzz.bin").toList ||
        decide (2 ≤ (extract_aec_metadata "zzz.bin").extracted_elements.length)) :=
  ⟨by decide, C4_legacy_standard_iff_amended "zzz.bin" (by decide)⟩

/-! ## Claim C6: primary-grammar revision vocabulary

Soundness lemmas: each matcher accepts only strings with the documented
group decomposition. -/

theorem matchReps_sound (p : Char → Bool) (k : List Char → Bool) :
    (hi : Nat) → (lo : Nat) → (s : List Char) →
    matchReps p k lo hi s = true →
    ∃ t u, s = t ++ u ∧ t.all p = true ∧ lo ≤ t.length ∧ t.length ≤ hi ∧
      k u = true
  | hi, lo, s, h => by
    unfold matchReps at h
    rw [Bool.or_eq_true, Bool.and_eq_true, decide_eq_true_eq] at h
    rcases h with ⟨hlo, hk⟩ | h
    · subst hlo
      exact ⟨[], s, rfl, rfl, Nat.le_refl 0, Nat.zero_le hi, hk⟩
    · rcases hi with _ | hi'
      · simp at h
      · rcases s with _ | ⟨c, rest⟩
        · simp at h
        · rw [show (match (hi' + 1 : Nat), (c :: rest : List Char) with
            | hi' + 1, c :: rest => p c && matchReps p k (lo - 1) hi' rest
            | _, _ => false) = (p c && matchReps p k (lo - 1) hi' rest)
            from rfl, Bool.and_eq_true] at h
          obtain ⟨t', u, rfl, hall, hlo', hhi', hk⟩ :=
            matchReps_sound p k hi' (lo - 1) rest h.2
          refine ⟨c :: t', u, rfl, ?_, ?_, ?_, hk⟩
          · simp [h.1, hall]
          · simp only [List.length_cons]; omega
          · simp only [List.length_cons]; omega

theorem litC_sound (c : Char) (k : List Char → Bool) (s : List Char)
    (h : litC c k s = true) : ∃ u, s = c :: u ∧ k u = true := by
  rcases s with _ | ⟨x, u⟩
  · simp [litC] at h
  · unfold litC at h
    rw [Bool.and_eq_true, decide_eq_true_eq] at h
    exact ⟨u, by rw [h.1], h.2⟩

theorem matchChar_sound (p : Char → Bool) (k : List Char → Bool)
    (s : List Char) (h : matchChar p k s = true) :
    ∃ x u, s = x :: u ∧ p x = true ∧ k u = true := by
  rcases s with _ | ⟨x, u⟩
  · simp [matchChar] at h
  · unfold matchChar at h
    rw [Bool.and_eq_true] at h
    exact ⟨x, u, rfl, h.1, h.2⟩

theorem litListCI_sound (k : List Char → Bool) :
    (t : List Char) → (s : List Char) → litListCI t k s = true →
    ∃ pre u, s = pre ++ u ∧ pre.length = t.length ∧ k u = true
  | [], s, h => ⟨[], s, rfl, rfl, h⟩
  | c :: cs, s, h => by
    rcases s with _ | ⟨x, rest⟩
    · simp [litListCI] at h
    · unfold litListCI at h
      rw [Bool.and_eq_true] at h
      obtain ⟨pre, u, rfl, hlen, hk⟩ := litListCI_sound k cs rest h.2
      exact ⟨x :: pre, u, rfl, by simp [hlen], hk⟩

theorem afterRevision_sound (u : List Char) (h : afterRevision u = true) :
    ∃ dtt ext rest : List Char,
      u = '_' :: (dtt ++ '.' :: (ext ++ rest)) ∧
      dtt.length = 6 ∧ dtt.all Char.isDigit = true := by
  unfold afterRevision at h
  obtain ⟨u1, rfl, h1⟩ := litC_sound '_' _ u h
  obtain ⟨dtt, u2, rfl, hall, hlo, hhi, h2⟩ := matchReps_sound _ _ 6 6 u1 h1
  obtain ⟨u3, rfl, h3⟩ := litC_sound '.' _ u2 h2
  obtain ⟨ext, rest, rfl, _, _, _, _⟩ := matchReps_sound _ _ 4 2 u3 h3
  exact ⟨dtt, ext, rest, rfl, by omega, hall⟩

theorem revisionGroup_sound (u : List Char) (h : revisionGroup u = true) :
    ∃ rv u' : List Char, u = rv ++ u' ∧ afterRevision u' = true ∧
      ((∃ c ds, rv = c :: ds ∧ isCRChar c = true ∧
          ds.all Char.isDigit = true ∧ 1 ≤ ds.length ∧ ds.length ≤ 2) ∨
        (rv.all Char.isAlpha = true ∧ 2 ≤ rv.length ∧ rv.length ≤ 6)) := by
  unfold revisionGroup at h
  rw [Bool.or_eq_true] at h
  rcases h with h | h
  · obtain ⟨c, u1, rfl, hc, h1⟩ := matchChar_sound _ _ u h
    obtain ⟨ds, u2, rfl, hall, hlo, hhi, h2⟩ := matchReps_sound _ _ 2 1 u1 h1
    exact ⟨c :: ds, u2, rfl, h2, Or.inl ⟨c, ds, rfl, hc, hall, hlo, hhi⟩⟩
  · obtain ⟨rv, u1, rfl, hall, hlo, hhi, h1⟩ := matchReps_sound _ _ 6 2 u h
    exact ⟨rv, u1, rfl, h1, Or.inr ⟨hall, hlo, hhi⟩⟩

theorem afterDiscipline_sound (u : List Char)
    (h : afterDiscipline u = true) :
    ∃ dt sh u' : List Char,
      u = '_' :: (dt ++ '_' :: (sh ++ '_' :: u')) ∧
      revisionGroup u' = true := by
  unfold afterDiscipline at h
  obtain ⟨u1, rfl, h1⟩ := litC_sound '_' _ u h
  obtain ⟨dt, u2, rfl, _, _, _, h2⟩ := matchReps_sound _ _ 6 2 u1 h1
  obtain ⟨u3, rfl, h3⟩ := litC_sound '_' _ u2 h2
  obtain ⟨sh, u4, rfl, _, _, _, h4⟩ := matchReps_sound _ _ 8 1 u3 h3
  obtain ⟨u5, rfl, h5⟩ := litC_sound '_' _ u4 h4
  exact ⟨dt, sh, u5, rfl, h5⟩

theorem disciplineGroup_sound (u : List Char)
    (h : disciplineGroup u = true) :
    ∃ disc u' : List Char, u = disc ++ u' ∧ afterDiscipline u' = true := by
  unfold disciplineGroup at h
  rw [Bool.or_eq_true, Bool.or_eq_true, Bool.or_eq_true, Bool.or_eq_true] at h
  rcases h with ((((h | h) | h) | h) | h)
  · obtain ⟨disc, u', rfl, _, _, _, h'⟩ := matchReps_sound _ _ 2 1 u h
    exact ⟨disc, u', rfl, h'⟩
  all_goals
    obtain ⟨disc, u', rfl, _, h'⟩ := litListCI_sound _ _ u h
    exact ⟨disc, u', rfl, h'⟩

theorem primaryAt_sound (s : List Char) (h : primaryAt s = true) :
    ∃ ph disc dt sh rv dtt ext rest : List Char,
      s = ph ++ '_' :: (disc ++ '_' :: (dt ++ '_' :: (sh ++ '_' ::
        (rv ++ '_' :: (dtt ++ '.' :: (ext ++ rest)))))) ∧
      ph.length = 2 ∧ ph.all Char.isAlpha = true ∧
      dtt.length = 6 ∧ dtt.all Char.isDigit = true ∧
      ((∃ c ds, rv = c :: ds ∧ isCRChar c = true ∧
          ds.all Char.isDigit = true ∧ 1 ≤ ds.length ∧ ds.length ≤ 2) ∨
        (rv.all Char.isAlpha = true ∧ 2 ≤ rv.length ∧ rv.length ≤ 6)) := by
  unfold primaryAt at h
  obtain ⟨ph, u1, rfl, hphall, hlo, hhi, h1⟩ := matchReps_sound _ _ 2 2 s h
  obtain ⟨u2, rfl, h2⟩ := litC_sound '_' _ u1 h1
  obtain ⟨disc, u3, rfl, h3⟩ := disciplineGroup_sound u2 h2
  obtain ⟨dt, sh, u4, rfl, h4⟩ := afterDiscipline_sound u3 h3
  obtain ⟨rv, u5, rfl, h5, hrv⟩ := revisionGroup_sound u4 h4
  obtain ⟨dtt, ext, rest, rfl, hd6, hdall⟩ := afterRevision_sound u5 h5
  exact ⟨ph, disc, dt, sh, rv, dtt, ext, rest, by simp, by omega, hphall,
    hd6, hdall, hrv⟩

/-- Counterexample to C6: `CD_A_DWG_001_QQQQ_031524.pdf` is a
six-underscore-field filename whose revision token `QQQQ` is outside the
fixed issue-code vocabulary, yet the primary grammar matches it: group 5
of `primary_format` is `([CR]\d{1,2}|[A-Z]{2,6})`
(`metadata_extractor.py:518`), whose second alternative accepts any 2-6
letter token. -/
theorem C6_primary_revision_vocabulary_counterexample :
    (extract_aec_metadata "CD_A_DWG_001_QQQQ_031524.pdf").naming_format =
      "primary" ∧
    (extract_aec_metadata "CD_A_DWG_001_QQQQ_031524.pdf").is_aec_standard =
      true ∧
    (splitOnChar '_'
        (fileStem "CD_A_DWG_001_QQQQ_031524.pdf").toList).map String.mk =
      ["CD", "A", "DWG", "001", "QQQQ", "031524"] ∧
    (["IFC", "IFB", "IFP", "AB", "RFI", "PCO", "FOR", "CONST",
      "RECORD"].contains "QQQQ") = false := by decide

/-- C6, amended: a filename is classified under the primary six-field
grammar only if its revision field is a check-print/clean code
`[CR]\d{1,2}` or any 2-6 letter sequence (a strict superset of the fixed
issue-code vocabulary), and its date field is exactly 6 digits. -/
theorem C6_primary_grammar_shape_amended (filename : String)
    (h : (extract_aec_metadata filename).naming_format = "primary") :
    ∃ pre ph disc dt sh rv dtt ext rest : List Char,
      filename.toList = pre ++ (ph ++ '_' :: (disc ++ '_' :: (dt ++ '_' ::
        (sh ++ '_' :: (rv ++ '_' :: (dtt ++ '.' :: (ext ++ rest))))))) ∧
      dtt.length = 6 ∧ dtt.all Char.isDigit = true ∧
      ((∃ c ds, rv = c :: ds ∧ isCRChar c = true ∧
          ds.all Char.isDigit = true ∧ 1 ≤ ds.length ∧ ds.length ≤ 2) ∨
        (rv.all Char.isAlpha = true ∧ 2 ≤ rv.length ∧ rv.length ≤ 6)) := by
  unfold extract_aec_metadata at h
  split_ifs at h with h1 h2 h3 h4 h5
  · unfold primary_format_search reSearch at h1
    rw [List.any_eq_true] at h1
    obtain ⟨t, ht, hat⟩ := h1
    rw [List.mem_tails] at ht
    obtain ⟨pre, hpre⟩ := ht
    obtain ⟨ph, disc, dt, sh, rv, dtt, ext, rest, heq, _, _, hd6, hdall,
      hrv⟩ := primaryAt_sound t hat
    refine ⟨pre, ph, disc, dt, sh, rv, dtt, ext, rest, ?_, hd6, hdall, hrv⟩
    rw [← hpre, heq]
  · exact absurd h (by decide)
  · exact absurd h (by decide)
  · exact absurd h (by decide)
  · exact absurd h (by decide)
  · simp at h

/-- Witness for the amended C6 at the out-of-vocabulary revision token. -/
theorem C6_primary_grammar_shape_amended_witness :
    (extract_aec_metadata "CD_A_DWG_001_QQQQ_031524.pdf").naming_format =
      "primary" ∧
    (∃ pre ph disc dt sh rv dtt ext rest : List Char,
      "CD_A_DWG_001_QQQQ_031524.pdf".toList = pre ++ (ph ++ '_' ::
        (disc ++ '_' :: (dt ++ '_' :: (sh ++ '_' :: (rv ++ '_' ::
          (dtt ++ '.' :: (ext ++ rest))))))) ∧
      dtt.length = 6 ∧ dtt.all Char.isDigit = true ∧
      ((∃ c ds, rv = c :: ds ∧ isCRChar c = true ∧
          ds.all Char.isDigit = true ∧ 1 ≤ ds.length ∧ ds.length ≤ 2) ∨
        (rv.all Char.isAlpha = true ∧ 2 ≤ rv.length ∧ rv.length ≤ 6))) :=
  ⟨by decide,
    C6_primary_grammar_shape_amended "CD_A_DWG_001_QQQQ_031524.pdf"
      (by decide)⟩

/-- Failures are recorded: an applicable extractor that raises
contributes its error message. -/
theorem runExtractors_error_mem (path : String) :
    (es : List RegisteredExtractor) → (ex : RegisteredExtractor) →
    ex ∈ es → ex.canExtract path = true → (e : String) →
    ex.extract path = .error e →
    ("Error in " ++ ex.name ++ ": " ++ e) ∈ (runExtractors path es).2
  | [], _, hmem, _, _, _ => absurd hmem (List.not_mem_nil _)
  | e0 :: rest, ex, hmem, hcan, e, herr => by
    rcases List.mem_cons.mp hmem with rfl | hmem
    · unfold runExtractors
      rw [hcan, if_pos rfl, herr]
      exact List.mem_cons_self _ _
    · have ih := runExtractors_error_mem path rest ex hmem hcan e herr
      unfold runExtractors
      rcases hc : e0.canExtract path with _ | _
      · simpa using ih
      · simp only [if_pos rfl]
        rcases hx : e0.extract path with e' | r
        · exact List.mem_cons_of_mem _ ih
        · rcases r with _ | ⟨a, rtl⟩
          · exact ih
          · exact ih

/-- Successful payloads are retained: an applicable extractor that
returns a non-empty payload contributes it, whatever the other
extractors do. -/
theorem runExtractors_payload_mem (path : String) :
    (es : List RegisteredExtractor) → (ex : RegisteredExtractor) →
    ex ∈ es → ex.canExtract path = true → (r : Payload) →
    ex.extract path = .ok r → r ≠ [] →
    (ex.name, r) ∈ (runExtractors path es).1
  | [], _, hmem, _, _, _, _ => absurd hmem (List.not_mem_nil _)
  | e0 :: rest, ex, hmem, hcan, r, hok, hne => by
    rcases List.mem_cons.mp hmem with rfl | hmem
    · unfold runExtractors
      rw [hcan, if_pos rfl, hok]
      rcases r with _ | ⟨a, r'⟩
      · exact absurd rfl hne
      · exact List.mem_cons_self _ _
    · have ih := runExtractors_payload_mem path rest ex hmem hcan r hok hne
      unfold runExtractors
      rcases hc : e0.canExtract path with _ | _
      · simpa using ih
      · simp only [if_pos rfl]
        rcases hx : e0.extract path with e' | r'
        · exact ih
        · rcases r' with _ | ⟨a, rtl⟩
          · exact ih
          · exact List.mem_cons_of_mem _ ih

/-- The custom-extractor step only appends: recorded errors survive it. -/
theorem runCustomExtractor_errors_mono
    (custom : List (String × RegisteredExtractor)) (path : String)
    (acc : List (String × Payload) × List String) (x : String)
    (hx : x ∈ acc.2) : x ∈ (runCustomExtractor custom path acc).2 := by
  unfold runCustomExtractor
  rcases hf : custom.find? (fun kv => kv.1 = asciiLower (fileSuffix path))
    with _ | kv
  · simp only [hf]; exact hx
  · simp only [hf]
    rcases he : kv.2.extract path with e | r
    · simp only [he]; exact List.mem_append_left _ hx
    · simp only [he]; exact hx

/-- The custom-extractor step only appends: stored payloads survive it. -/
theorem runCustomExtractor_metadata_mono
    (custom : List (String × RegisteredExtractor)) (path : String)
    (acc : List (String × Payload) × List String) (x : String × Payload)
    (hx : x ∈ acc.1) : x ∈ (runCustomExtractor custom path acc).1 := by
  unfold runCustomExtractor
  rcases hf : custom.find? (fun kv => kv.1 = asciiLower (fileSuffix path))
    with _ | kv
  · simp only [hf]; exact hx
  · simp only [hf]
    rcases he : kv.2.extract path with e | r
    · simp only [he]; exact hx
    · simp only [he]; exact List.mem_append_left _ hx

/-- C7: `extract_metadata` returns a result for every input (it is a
total function of this model, mirroring the dispatch boundary that never
re-raises); when one registered extractor raises on a file its message is
recorded in `errors` while every other applicable extractor's non-empty
payload is still present in `metadata`; and `success` is true exactly
when at least one extractor produced a payload. -/
theorem C7_extraction_never_raises_and_isolates
    (extractors : List RegisteredExtractor)
    (custom : List (String × RegisteredExtractor)) (path : String) :
    (∀ ex ∈ extractors, ex.canExtract path = true →
      ∀ e, ex.extract path = .error e →
        ("Error in " ++ ex.name ++ ": " ++ e) ∈
          (extract_metadata extractors custom path).errors) ∧
    (∀ ex ∈ extractors, ex.canExtract path = true →
      ∀ r, ex.extract path = .ok r → r ≠ [] →
        (ex.name, r) ∈ (extract_metadata extractors custom path).metadata) ∧
    ((extract_metadata extractors custom path).success = true ↔
      (extract_metadata extractors custom path).metadata ≠ []) := by
  refine ⟨?_, ?_, ?_⟩
  · intro ex hmem hcan e herr
    exact runCustomExtractor_errors_mono custom path _ _
      (runExtractors_error_mem path extractors ex hmem hcan e herr)
  · intro ex hmem hcan r hok hne
    exact runCustomExtractor_metadata_mono custom path _ _
      (runExtractors_payload_mem path extractors ex hmem hcan r hok hne)
  · unfold extract_metadata
    simp only [decide_eq_true_eq]
    exact ⟨fun h => List.ne_nil_of_length_pos h,
      fun h => List.length_pos.mpr h⟩

/-- Witness for C7: with a raising PDF extractor and a succeeding text
extractor, the error is recorded, the text payload survives, and overall
success still reflects the presence of a payload. -/
theorem C7_extraction_never_raises_and_isolates_witness :
    ("Error in PDFExtractor: boom") ∈
      (extract_metadata [pdfRaisingExtractor, textDemoExtractor] []
        "doc.pdf").errors ∧
    ("TextFileExtractor", [("line_count", "3")]) ∈
      (extract_metadata [pdfRaisingExtractor, textDemoExtractor] []
        "doc.pdf").metadata ∧
    ((extract_metadata [pdfRaisingExtractor, textDemoExtractor] []
        "doc.pdf").success = true ↔
      (extract_metadata [pdfRaisingExtractor, textDemoExtractor] []
        "doc.pdf").metadata ≠ []) := by
  have h := C7_extraction_never_raises_and_isolates
    [pdfRaisingExtractor, textDemoExtractor] [] "doc.pdf"
  refine ⟨h.1 pdfRaisingExtractor (List.mem_cons_self _ _) (by decide)
      "boom" rfl,
    h.2.1 textDemoExtractor (List.mem_cons_of_mem _ (List.mem_cons_self _ _))
      rfl [("line_count", "3")] rfl (by decide),
    h.2.2⟩

theorem insertSorted_perm {α : Type} (le : α → α → Bool) (x : α) :
    (l : List α) → (insertSorted le x l).Perm (x :: l)
  | [] => List.Perm.refl _
  | y :: ys => by
    unfold insertSorted
    split
    · exact List.Perm.refl _
    · exact ((insertSorted_perm le x ys).cons y).trans (List.Perm.swap x y ys)

theorem sortBy_perm {α : Type} (le : α → α → Bool) :
    (l : List α) → (sortBy le l).Perm l
  | [] => List.Perm.refl _
  | y :: ys =>
    (insertSorted_perm le y (sortBy le ys)).trans ((sortBy_perm le ys).cons y)

/-- C5 (code bug): re-running metadata extraction appends instead of
replacing.  Calling `update_file_metadata` twice with the same file id
and metadata type leaves two current rows for the pair
`(file_id = 1, metadata_type = "general")` — `INSERT OR REPLACE` never
replaces because `file_metadata` has no unique constraint on
`(file_id, metadata_type)` (`database_manager.py:222-232`), so the
documented invariant "at most one current record per (file id, metadata
type)" is violated by the schema. -/
theorem C5_insert_or_replace_appends :
    (((update_file_metadata
        (update_file_metadata emptyDB 1 [.generic "general" "{}" "1.0"])
        1 [.generic "general" "{}" "1.0"]).file_metadata.filter
      (fun r => r.file_id = 1 ∧ r.metadata_type = "general")).length = 2) ∧
    ((update_file_metadata
        (update_file_metadata emptyDB 1 [.generic "general" "{}" "1.0"])
        1 [.generic "general" "{}" "1.0"]).file_metadata.map
      (fun r => r.id)) = [1, 2] := by decide

/-! ## Claim C10: inactive rows never surface in project reads -/

/-- Filtering to a project's active rows ignores rows already filtered
for activity. -/
theorem filter_active_project (l : List FileRow) (pid : Nat) :
    (l.filter (fun r => r.is_active)).filter
      (fun r => r.project_id = pid ∧ r.is_active) =
    l.filter (fun r => r.project_id = pid ∧ r.is_active) := by
  rw [List.filter_filter]
  apply List.filter_congr
  intro a _
  rcases ha : a.is_active with _ | _ <;> simp [ha]

/-- Joined rows of an inactive file never pass the criteria filter. -/
theorem leftJoin_inactive_filtered (T : List AecMetadataRow)
    (c : FileCriteria) (f : FileRow) (hf : f.is_active = false) :
    (leftJoinAec T f).filter (criteriaMatch c) = [] := by
  unfold leftJoinAec
  rcases hT : T.filter (fun a => a.file_id = f.id) with _ | ⟨a, hits⟩
  · simp only [hT]
    simp [criteriaMatch, hf]
  · simp only [hT]
    rw [List.filter_eq_nil_iff]
    intro x hx
    rw [List.mem_map] at hx
    obtain ⟨a', _, rfl⟩ := hx
    simp [criteriaMatch, hf]

/-- The criteria search is blind to inactive file rows. -/
theorem flatMap_filter_active (T : List AecMetadataRow) (c : FileCriteria) :
    (l : List FileRow) →
    (((l.filter (fun r => r.is_active)).flatMap (leftJoinAec T)).filter
        (criteriaMatch c)) =
      ((l.flatMap (leftJoinAec T)).filter (criteriaMatch c))
  | [] => rfl
  | f :: l => by
    have ih := flatMap_filter_active T c l
    rcases ha : f.is_active with _ | _
    · simp only [List.filter_cons, ha, Bool.false_eq_true, if_false,
        List.flatMap_cons, List.filter_append, ih,
        leftJoin_inactive_filtered T c f ha, List.nil_append]
    · simp only [List.filter_cons, ha, if_true, List.flatMap_cons,
        List.filter_append, ih]

/-- `List.any` with an activity-implying predicate ignores inactive
rows. -/
theorem any_filter_active (Q : FileRow → Bool)
    (hQ : ∀ f, Q f = true → f.is_active = true) :
    (l : List FileRow) →
    (l.filter (fun r => r.is_active)).any Q = l.any Q
  | [] => rfl
  | f :: l => by
    have ih := any_filter_active Q hQ l
    rcases ha : f.is_active with _ | _
    · have hq : Q f = false := by
        rcases hqf : Q f with _ | _
        · rfl
        · rw [hQ f hqf] at ha; exact absurd ha (by simp)
      simp only [List.filter_cons, ha, Bool.false_eq_true, if_false,
        List.any_cons, hq, Bool.false_or, ih]
    · simp only [List.filter_cons, ha, if_true, List.any_cons, ih]

/-- The discipline histogram joins only active files. -/
theorem disciplineHistogram_removeInactive (db : DBState) (pid : Nat) :
    disciplineHistogram (removeInactiveFiles db) pid =
      disciplineHistogram db pid := by
  unfold disciplineHistogram
  have hj : (removeInactiveFiles db).aec_file_metadata.filter (fun a =>
      (removeInactiveFiles db).files.any (fun f =>
        f.id = a.file_id ∧ f.project_id = pid ∧ f.is_active)) =
      db.aec_file_metadata.filter (fun a =>
        db.files.any (fun f =>
          f.id = a.file_id ∧ f.project_id = pid ∧ f.is_active)) := by
    apply List.filter_congr
    intro a _
    show (removeInactiveFiles db).files.any _ = _
    unfold removeInactiveFiles
    exact any_filter_active _ (fun f h => by
      simp only [decide_eq_true_eq] at h
      exact h.2.2) db.files
  rw [hj]

/-- C10: `get_files_by_project`, `get_files_by_criteria` and
`get_project_statistics` are unchanged when every inactive file row is
deleted from the store, and every row they return is active — file rows
marked removed never appear in project listings, criteria searches, or
the file-type/discipline histograms. -/
theorem C10_inactive_rows_invisible (db : DBState) (pid : Nat)
    (c : FileCriteria) :
    get_files_by_project (removeInactiveFiles db) pid =
      get_files_by_project db pid ∧
    get_files_by_criteria (removeInactiveFiles db) c =
      get_files_by_criteria db c ∧
    get_project_statistics (removeInactiveFiles db) pid =
      get_project_statistics db pid ∧
    (∀ r ∈ get_files_by_project db pid, r.is_active = true) ∧
    (∀ x ∈ get_files_by_criteria db c, x.1.is_active = true) := by
  refine ⟨?_, ?_, ?_, ?_, ?_⟩
  · unfold get_files_by_project removeInactiveFiles
    rw [filter_active_project]
  · unfold get_files_by_criteria removeInactiveFiles
    rw [flatMap_filter_active]
  · unfold get_project_statistics
    rw [disciplineHistogram_removeInactive]
    unfold removeInactiveFiles
    rw [filter_active_project]
  · intro r hr
    unfold get_files_by_project at hr
    have hm := (sortBy_perm _ _).mem_iff.mp hr
    rw [List.mem_filter] at hm
    have := hm.2
    simp only [decide_eq_true_eq] at this
    exact this.2
  · intro x hx
    unfold get_files_by_criteria at hx
    have hm := (sortBy_perm _ _).mem_iff.mp hx
    rw [List.mem_filter] at hm
    have := hm.2
    simp only [criteriaMatch, Bool.and_eq_true] at this
    exact this.1.1.1.1.1.1.1

/-- Witness for C10 on a concrete store holding one active and one
inactive row. -/
theorem C10_inactive_rows_invisible_witness :
    get_project_statistics (removeInactiveFiles c10db) 1 =
      get_project_statistics c10db 1 ∧
    c10ActiveRow.is_active = true ∧
    (c10ActiveRow, (none : Option AecMetadataRow)).1.is_active = true := by
  have h := C10_inactive_rows_invisible c10db 1 noCriteria
  exact ⟨h.2.2.1,
    h.2.2.2.1 c10ActiveRow (by decide),
    h.2.2.2.2 (c10ActiveRow, none) (by decide)⟩

/-! ## Claim C1: one ScanSession row per scan attempt -/

theorem insert_file_record_scan_history (db : DBState) (fd : FileData)
    (now : Int) : (insert_file_record db fd now).1.scan_history =
      db.scan_history := by
  unfold insert_file_record
  rcases h : db.files.find? (fun r => r.file_path = fd.file_path) with _ | e <;>
    simp only [h]

theorem get_or_create_directory_id_scan_history (db : DBState) (pid : Nat)
    (p : AbsPath) : (get_or_create_directory_id db pid p).1.scan_history =
      db.scan_history := by
  unfold get_or_create_directory_id
  rcases h : db.directories.find? (fun d =>
      d.project_id = pid ∧ d.folder_path = p) with _ | d <;> simp only [h]

theorem process_one_scan_history (pid : Nat) (now : Int)
    (acc : DBState × Nat × Nat) (fi : FileInfo) :
    (process_one pid now acc fi).1.scan_history = acc.1.scan_history := by
  unfold process_one
  dsimp only
  split
  · split <;>
      simp only [insert_file_record_scan_history,
        get_or_create_directory_id_scan_history]
  · simp only [insert_file_record_scan_history,
      get_or_create_directory_id_scan_history]

theorem process_foldl_scan_history (pid : Nat) (now : Int) :
    (results : List FileInfo) → (acc : DBState × Nat × Nat) →
    ((results.foldl (process_one pid now) acc).1).scan_history =
      acc.1.scan_history
  | [], _ => rfl
  | fi :: rest, acc => by
    rw [List.foldl_cons, process_foldl_scan_history pid now rest _,
      process_one_scan_history]

theorem process_scan_results_scan_history (db : DBState) (pid : Nat)
    (results : List FileInfo) (now : Int) :
    (process_scan_results db pid results now).1.scan_history =
      db.scan_history := by
  unfold process_scan_results
  rw [process_foldl_scan_history]

theorem detect_one_scan_history (cur : List AbsPath) (disk : Disk)
    (now : Int) (acc : DBState × Nat) (r : FileRow) :
    (detect_one cur disk now acc r).1.scan_history = acc.1.scan_history := by
  unfold detect_one
  split <;> rfl

theorem detect_foldl_scan_history (cur : List AbsPath) (disk : Disk)
    (now : Int) : (S : List FileRow) → (acc : DBState × Nat) →
    ((S.foldl (detect_one cur disk now) acc).1).scan_history =
      acc.1.scan_history
  | [], _ => rfl
  | r :: S, acc => by
    rw [List.foldl_cons, detect_foldl_scan_history cur disk now S _,
      detect_one_scan_history]

theorem detect_removed_files_scan_history (db : DBState) (pid : Nat)
    (cur : List AbsPath) (disk : Disk) (now : Int) :
    (detect_removed_files db pid cur disk now).1.scan_history =
      db.scan_history := by
  unfold detect_removed_files
  rw [detect_foldl_scan_history]

/-- Counterexample to C1: scanning an unknown project id (42 in an empty
catalog) and scanning a project whose base path is missing on disk both
return `success = False` via the early returns of `main.py:484-488` and
`main.py:497-501` — before any `record_scan_session` call — so no
ScanSession row is recorded at all, contradicting "recorded with status
'failed'". -/
theorem C1_resolution_failures_record_no_session_counterexample :
    (scan_project c1env emptyDB 42 "full").1.scan_history = [] ∧
    (scan_project c1env emptyDB 42 "full").2.success = false ∧
    (scan_project c1env c1dbMissingPath 7 "full").1.scan_history = [] ∧
    (scan_project c1env c1dbMissingPath 7 "full").2.success = false := by
  decide

/-- C1, amended: exactly one ScanSession row is recorded for every scan
that passes project-path resolution (whether it then completes or fails
in the outer exception handler), but the two early-return failures —
project id unknown in the catalog, or resolved base path missing on
disk — record no ScanSession row and leave the store untouched. -/
theorem C1_one_session_after_resolution_amended (env : ScanEnv)
    (db : DBState) (pid : Nat) (stype : String) :
    ((scan_project env db pid stype).1.scan_history.length =
      db.scan_history.length +
        match resolve_project_path db pid with
        | .notFound => 0
        | .crashed => 1
        | .resolved p => if pathExists env.disk p then 1 else 0) ∧
    (resolve_project_path db pid = .notFound →
      (scan_project env db pid stype).1 = db ∧
      (scan_project env db pid stype).2.success = false) ∧
    (∀ p, resolve_project_path db pid = .resolved p →
      pathExists env.disk p = false →
      (scan_project env db pid stype).1 = db ∧
      (scan_project env db pid stype).2.success = false) := by
  rcases hr : resolve_project_path db pid with _ | p | _
  · refine ⟨?_, ?_, ?_⟩
    · unfold scan_project
      simp [hr]
    · intro _
      unfold scan_project
      simp [hr]
    · intro p hp
      exact absurd hp (by simp)
  · refine ⟨?_, ?_, ?_⟩
    · unfold scan_project
      simp only [hr]
      by_cases he : pathExists env.disk p = true
      · simp only [he, if_true]
        unfold scan_project_with_results record_scan_session
        simp only [List.length_append, List.length_singleton,
          detect_removed_files_scan_history, process_scan_results_scan_history]
      · simp only [Bool.not_eq_true] at he
        simp [he]
    · intro hnf
      exact absurd hnf (by simp)
    · intro p' hp' hex
      have hpp : p = p' := by injection hp'
      subst hpp
      unfold scan_project
      simp [hr, hex]
  · refine ⟨?_, ?_, ?_⟩
    · unfold scan_project record_scan_session
      simp [hr]
    · intro hnf
      exact absurd hnf (by simp)
    · intro p hp
      exact absurd hp (by simp)

/-- Witness for the amended C1 at the unknown-project input. -/
theorem C1_one_session_after_resolution_amended_witness :
    (scan_project c1env emptyDB 42 "incremental").1 = emptyDB ∧
    (scan_project c1env emptyDB 42 "incremental").2.success = false :=
  (C1_one_session_after_resolution_amended c1env emptyDB 42
    "incremental").2.1 (by decide)

theorem c2scan_eval :
    scan_directory defaultScannerConfig c2disk ["p"] = [c2info] := by
  have hch : dirChildren c2disk ["p"] = some [.file "a.txt" c2meta] := rfl
  simp only [scan_directory, hch, threadScanList, threadDirs, threadFiles,
    List.nil_append]
  decide

theorem c2run1 :
    scan_project c2env c2db0 1 "full" =
      scan_project_with_results c2env c2db0 1 "full" [c2info] := by
  have hres : resolve_project_path c2db0 1 = .resolved ["p"] := by decide
  have hex : pathExists c2disk ["p"] = true := by decide
  unfold scan_project
  simp only [hres, hex, if_true]
  unfold select_scan_results
  rw [if_pos rfl]
  rw [show c2env.disk = c2disk from rfl, show c2env.cfg = defaultScannerConfig from rfl, c2scan_eval, if_pos hex]

/-- C2 (code bug): a full scan of an unchanged one-file tree succeeds
with `files_added = 1`, but running it again fails during path
resolution (no upsert happens at all): success is false, both counters
are zero, and the scan history reads `completed` then `failed`.  The
row count of the files table is unchanged, but not via the claimed
upsert-in-place — the claim's `files_updated = N` on the second run is
false on this input. -/
theorem C2_second_run_resolution_code_bug :
    (scan_project c2env c2db0 1 "full").2.success = true ∧
    (scan_project c2env c2db0 1 "full").2.files_added = 1 ∧
    (scan_project c2env c2db0 1 "full").2.files_updated = 0 ∧
    (scan_project c2env (scan_project c2env c2db0 1 "full").1 1
        "full").2.success = false ∧
    (scan_project c2env (scan_project c2env c2db0 1 "full").1 1
        "full").2.files_added = 0 ∧
    (scan_project c2env (scan_project c2env c2db0 1 "full").1 1
        "full").2.files_updated = 0 ∧
    ((scan_project c2env (scan_project c2env c2db0 1 "full").1 1
        "full").1.scan_history.map (fun s => s.scan_status)) =
      ["completed", "failed"] ∧
    (scan_project c2env (scan_project c2env c2db0 1 "full").1 1
        "full").1.files.length =
      (scan_project c2env c2db0 1 "full").1.files.length := by
  rw [c2run1]
  decide

/-! ## Claim C3: removed-file reconciliation

`_detect_removed_files` marks exactly the unobserved, off-disk active
rows of the project inactive — but `scan_project` invokes it
unconditionally when building the session record (`main.py:595`), for
incremental and validation scans as well as full ones. -/

/-- Marking preserves the row id. -/
theorem markRemoved_id (now : Int) (x : FileRow) :
    (markRemoved now x).id = x.id := rfl

/-- Marking a row twice equals marking it once. -/
theorem markRemoved_idem (now : Int) (x : FileRow) :
    markRemoved now (markRemoved now x) = markRemoved now x := rfl

/-- Composing one `UPDATE ... WHERE id = ?` with a set of later updates. -/
theorem markIf_compose (now : Int) (i : Nat) (ids : List Nat) (x : FileRow) :
    (if (if x.id = i then markRemoved now x else x).id ∈ ids then
      markRemoved now (if x.id = i then markRemoved now x else x)
     else (if x.id = i then markRemoved now x else x)) =
    (if x.id ∈ i :: ids then markRemoved now x else x) := by
  by_cases hxi : x.id = i
  · simp only [hxi, if_pos rfl, markRemoved_id, markRemoved_idem,
      List.mem_cons, true_or, if_true]
    split <;> rfl
  · have hy : (if x.id = i then markRemoved now x else x) = x := if_neg hxi
    rw [hy]
    by_cases hm : x.id ∈ ids
    · rw [if_pos hm, if_pos (List.mem_cons_of_mem _ hm)]
    · rw [if_neg hm, if_neg (fun h => (List.mem_cons.mp h).elim hxi hm)]

/-- The update loop of `_detect_removed_files` over an arbitrary snapshot:
the rows whose id belongs to a snapshot row passing the removal condition
are marked, and the count equals the number of such snapshot rows. -/
theorem detect_foldl_characterisation (cur : List AbsPath) (disk : Disk)
    (now : Int) : (S : List FileRow) → (acc : DBState × Nat) →
    ((S.foldl (detect_one cur disk now) acc).1.files =
      acc.1.files.map (fun x =>
        if x.id ∈ (S.filter (removalCond cur disk)).map (fun r => r.id)
        then markRemoved now x else x)) ∧
    (S.foldl (detect_one cur disk now) acc).2 =
      acc.2 + (S.filter (removalCond cur disk)).length
  | [], acc => by
    constructor
    · simp
    · simp
  | r :: S, acc => by
    rcases hc : removalCond cur disk r with _ | _
    · have hstep : detect_one cur disk now acc r = acc := by
        unfold detect_one
        rw [hc]
        simp
      have ih := detect_foldl_characterisation cur disk now S acc
      constructor
      · rw [List.foldl_cons, hstep, ih.1]
        simp only [List.filter_cons, hc, Bool.false_eq_true, if_false]
      · rw [List.foldl_cons, hstep, ih.2]
        simp only [List.filter_cons, hc, Bool.false_eq_true, if_false]
    · have hstep : detect_one cur disk now acc r =
          ({ acc.1 with files := acc.1.files.map (fun x =>
              if x.id = r.id then markRemoved now x else x) },
            acc.2 + 1) := by
        unfold detect_one
        rw [hc]
        simp
      have ih := detect_foldl_characterisation cur disk now S
        ({ acc.1 with files := acc.1.files.map (fun x =>
            if x.id = r.id then markRemoved now x else x) }, acc.2 + 1)
      constructor
      · rw [List.foldl_cons, hstep, ih.1]
        simp only [List.filter_cons, hc, if_true, List.map_cons,
          List.map_map]
        apply List.map_congr_left
        intro x _
        exact markIf_compose now r.id _ x
      · rw [List.foldl_cons, hstep, ih.2]
        simp only [List.filter_cons, hc, if_true, List.length_cons]
        omega

/-- Characterisation of `_detect_removed_files`: with distinct row ids
(the autoincrement invariant), exactly the active rows of the project
whose path was not observed and whose file is gone from disk are marked
inactive, and the returned count is their number. -/
theorem detect_removed_files_characterisation (db : DBState) (pid : Nat)
    (cur : List AbsPath) (disk : Disk) (now : Int)
    (hids : (db.files.map (fun r => r.id)).Nodup) :
    (detect_removed_files db pid cur disk now).1.files =
      db.files.map (fun x =>
        if x.is_active = true ∧ x.project_id = pid ∧
            removalCond cur disk x = true
        then markRemoved now x else x) ∧
    (detect_removed_files db pid cur disk now).2 =
      (db.files.filter (fun x =>
        x.is_active && decide (x.project_id = pid) &&
          removalCond cur disk x)).length := by
  unfold detect_removed_files
  have hchar := detect_foldl_characterisation cur disk now
    (get_files_by_project db pid) (db, 0)
  have hmemS : ∀ r, r ∈ get_files_by_project db pid ↔
      (r ∈ db.files ∧ r.project_id = pid ∧ r.is_active = true) := by
    intro r
    unfold get_files_by_project
    rw [(sortBy_perm _ _).mem_iff, List.mem_filter]
    simp
  constructor
  · rw [hchar.1]
    apply List.map_congr_left
    intro x hx
    have hiff : (x.id ∈ ((get_files_by_project db pid).filter
          (removalCond cur disk)).map (fun r => r.id)) ↔
        (x.is_active = true ∧ x.project_id = pid ∧
          removalCond cur disk x = true) := by
      constructor
      · intro h
        rw [List.mem_map] at h
        obtain ⟨r, hr, hrid⟩ := h
        rw [List.mem_filter] at hr
        obtain ⟨hrS, hrc⟩ := hr
        rw [hmemS] at hrS
        have : r = x := List.inj_on_of_nodup_map hids hrS.1 hx hrid
        subst this
        exact ⟨hrS.2.2, hrS.2.1, hrc⟩
      · intro ⟨hact, hpid, hrc⟩
        rw [List.mem_map]
        refine ⟨x, ?_, rfl⟩
        rw [List.mem_filter]
        exact ⟨(hmemS x).mpr ⟨hx, hpid, hact⟩, hrc⟩
    by_cases hcond : (x.is_active = true ∧ x.project_id = pid ∧
        removalCond cur disk x = true)
    · rw [if_pos (hiff.mpr hcond), if_pos hcond]
    · rw [if_neg (fun h => hcond (hiff.mp h)), if_neg hcond]
  · rw [hchar.2]
    have hperm : ((get_files_by_project db pid).filter
        (removalCond cur disk)).Perm
        ((db.files.filter (fun r =>
          r.project_id = pid ∧ r.is_active)).filter
          (removalCond cur disk)) := by
      unfold get_files_by_project
      exact (sortBy_perm _ _).filter _
    rw [Nat.zero_add, hperm.length_eq, List.filter_filter]
    congr 1
    apply List.filter_congr
    intro x _
    rcases hx1 : x.is_active with _ | _ <;>
      rcases hx2 : removalCond cur disk x with _ | _ <;>
        simp [hx1, hx2]

/-- C3, amended: after any scan that passes path resolution — full,
incremental, validation, or otherwise — exactly those active cataloged
rows of the project whose path was not observed in the scan results and
whose file no longer exists on disk are marked inactive, `files_removed`
equals their count, and the recorded ScanSession row carries that count;
the reconciliation is performed for every scan type, not only full
scans. -/
theorem C3_reconciliation_every_scan_type_amended
    (db : DBState) (pid : Nat) (cur : List AbsPath) (disk : Disk)
    (now : Int) (hids : (db.files.map (fun r => r.id)).Nodup)
    (env : ScanEnv) (db2 : DBState) (pid2 : Nat) (stype : String)
    (root : AbsPath)
    (hres : resolve_project_path db2 pid2 = .resolved root)
    (hex : pathExists env.disk root = true) :
    ((detect_removed_files db pid cur disk now).1.files =
      db.files.map (fun x =>
        if x.is_active = true ∧ x.project_id = pid ∧
            removalCond cur disk x = true
        then markRemoved now x else x)) ∧
    ((detect_removed_files db pid cur disk now).2 =
      (db.files.filter (fun x =>
        x.is_active && decide (x.project_id = pid) &&
          removalCond cur disk x)).length) ∧
    ((scan_project env db2 pid2 stype).1.scan_history.map
        (fun s => (s.scan_type, s.files_removed)) =
      db2.scan_history.map (fun s => (s.scan_type, s.files_removed)) ++
        [(stype,
          (detect_removed_files
            (process_scan_results db2 pid2
              (select_scan_results env db2 pid2 stype root) env.now).1
            pid2
            ((select_scan_results env db2 pid2 stype root).map
              (fun fi => fi.file_path))
            env.disk env.now).2)]) := by
  obtain ⟨h1, h2⟩ :=
    detect_removed_files_characterisation db pid cur disk now hids
  refine ⟨h1, h2, ?_⟩
  unfold scan_project
  simp only [hres]
  rw [if_pos hex]
  unfold scan_project_with_results record_scan_session
  rw [List.map_append, detect_removed_files_scan_history,
    process_scan_results_scan_history]
  simp only [List.map_cons, List.map_nil]

/-- The scan of `/a` finds no files. -/
theorem c3scan_eval :
    scan_directory defaultScannerConfig c3disk ["a"] = [] := by
  have hb : should_exclude_directory defaultScannerConfig "b" = false := by
    decide
  have hc : should_exclude_directory defaultScannerConfig "c" = false := by
    decide
  have hch : dirChildren c3disk ["a"] = some [.dir "b" [.dir "c" []]] := rfl
  simp only [scan_directory, hch, threadScanList, threadDirs, threadFiles,
    hb, hc, Bool.false_eq_true, if_false, List.nil_append, List.append_nil]

/-- Counterexample to C3: an incremental scan (not a full one) of the
project marks the deleted file inactive and records
`files_removed = 1` — `_detect_removed_files` is called for every scan
type at `main.py:595`. -/
theorem C3_incremental_reconciles_counterexample :
    (scan_project c3env c3db 1 "incremental").2.success = true ∧
    ((scan_project c3env c3db 1 "incremental").1.scan_history.map
        (fun s => (s.scan_type, s.files_removed, s.scan_status))) =
      [("incremental", 1, "completed")] ∧
    ((scan_project c3env c3db 1 "incremental").1.files.map
        (fun r => (r.id, r.is_active))) = [(1, false)] := by
  have hres : resolve_project_path c3db 1 = .resolved ["a"] := by decide
  have hex : pathExists c3env.disk ["a"] = true := by decide
  have hrun : scan_project c3env c3db 1 "incremental" =
      scan_project_with_results c3env c3db 1 "incremental" [] := by
    unfold scan_project
    simp only [hres]
    rw [if_pos hex]
    unfold select_scan_results
    rw [if_neg (by decide), if_pos rfl]
    unfold incremental_scan
    rw [show c3env.disk = c3disk from rfl,
      show c3env.cfg = defaultScannerConfig from rfl, c3scan_eval]
    rfl
  rw [hrun]
  decide

/-- Witness for the amended C3, instantiated at the incremental-scan
scenario. -/
theorem C3_reconciliation_every_scan_type_amended_witness :
    ((detect_removed_files c3db 1 [] c3disk 200).2 =
      (c3db.files.filter (fun x =>
        x.is_active && decide (x.project_id = 1) &&
          removalCond [] c3disk x)).length) ∧
    ((scan_project c3env c3db 1 "incremental").1.scan_history.map
        (fun s => (s.scan_type, s.files_removed)) =
      c3db.scan_history.map (fun s => (s.scan_type, s.files_removed)) ++
        [("incremental",
          (detect_removed_files
            (process_scan_results c3db 1
              (select_scan_results c3env c3db 1 "incremental" ["a"])
              c3env.now).1
            1
            ((select_scan_results c3env c3db 1 "incremental" ["a"]).map
              (fun fi => fi.file_path))
            c3env.disk c3env.now).2)]) := by
  have h := C3_reconciliation_every_scan_type_amended c3db 1 [] c3disk 200
    (by decide) c3env c3db 1 "incremental" ["a"] (by decide) (by decide)
  exact ⟨h.2.1, h.2.2⟩
